import Mathlib

/-!
# arduino_remote.c : an RC-5 remote control served over HTTP

A shallow embedding of `src/arduino_remote.c`.

* C `int` values are modelled by `Int`.  The only arithmetic in the program is
  `i++`, `j++` (bounded by the 20-element buffers) and `loopTime += 20`
  (bounded by 760), so no 16-bit overflow can occur on defined executions.
* `char` values are modelled by `Char`; a `char[]` argument is a `List Char`
  and the C string it holds is the run of characters before the first NUL.
* The global variables are threaded explicitly through `Globals`.
* Calls to the Arduino library (`client.println`, `Serial.print`,
  `digitalWrite`, `delayMicroseconds`) are recorded, in program order, in a
  trace of `Event`s.
* A function returns `none` exactly when the C execution has no defined
  result: a store outside a 20-element buffer, a read outside the frame
  array, or a loop that has not finished within the fuel it was given.
-/

namespace ArduinoRemote

/-! ## Library calls -/

/-- Pin levels of `digitalWrite`. -/
inductive Level
  | LOW
  | HIGH
  deriving DecidableEq, Repr

/-- One call into the Arduino library. -/
inductive Event
  | clientPrintln (line : String)
  | serialPrint (text : String)
  | serialPrintInt (value : Int)
  | serialPrintln
  | digitalWrite (pin : Int) (level : Level)
  | delayMicroseconds (us : Int)
  deriving DecidableEq, Repr

/-- Whether the event drives the output pin or the clock (`digitalWrite`,
`delayMicroseconds`). -/
def Event.isPin : Event → Bool
  | .digitalWrite _ _ => true
  | .delayMicroseconds _ => true
  | _ => false

/-- The pin/delay part of a trace. -/
def pinTrace (tr : List Event) : List Event := tr.filter Event.isPin

/-- The lines written to the client by `client.println`, in order. -/
def clientLines : List Event → List String
  | [] => []
  | .clientPrintln line :: tr => line :: clientLines tr
  | _ :: tr => clientLines tr

/-- The values and texts written to the serial port, in order. -/
def serialTrace (tr : List Event) : List Event := tr.filter (fun e =>
  match e with
  | .serialPrint _ => true
  | .serialPrintInt _ => true
  | .serialPrintln => true
  | _ => false)

/-! ## Global variables -/

def irPin : Int := 3
def oscillationTime : Int := 1728
def halfOscillationTime : Int := 864
def halfOscillationTimeCalib : Int := 750

/-- The string terminator. -/
def NUL : Char := Char.ofNat 0

/-- The program's mutable globals (`systemType[20]`, `command[20]`, the four
parser flags, `i`, `j`, `checkBit`, `irCommand[14]`). -/
structure Globals where
  systemType : List Char
  command : List Char
  readSystemType : Bool
  systemTypeReadComplete : Bool
  readCommand : Bool
  commandReadComplete : Bool
  i : Nat
  j : Nat
  checkBit : Int
  irCommand : List Int
  deriving DecidableEq, Repr

/-- The globals as the C start-up code leaves them: zero-filled arrays and the
initialisers of lines 35-41. -/
def Globals.init : Globals where
  systemType := List.replicate 20 NUL
  command := List.replicate 20 NUL
  readSystemType := false
  systemTypeReadComplete := false
  readCommand := false
  commandReadComplete := false
  i := 0
  j := 0
  checkBit := 0
  irCommand := List.replicate 14 0

/-- The arrays have their declared sizes. -/
def Globals.WF (g : Globals) : Prop :=
  g.systemType.length = 20 ∧ g.command.length = 20 ∧ g.irCommand.length = 14

instance (g : Globals) : Decidable g.WF := by
  unfold Globals.WF; infer_instance

/-! ## C strings -/

/-- The C string held by a character array: everything before the first NUL. -/
def cstr (buf : List Char) : List Char := buf.takeWhile (fun c => c != NUL)

/-- The character read at the head of an array; the end of a string literal
reads as its terminator. -/
def headChar (s : List Char) : Char := s.headD NUL

/-- The library function `strcmp`: walk both arrays until they differ or both
are at a terminator; the result is the difference of the two characters. -/
def strcmp : List Char → List Char → Int
  | [], b => 0 - ((headChar b).toNat : Int)
  | x :: a, b =>
    if x ≠ headChar b then (x.toNat : Int) - ((headChar b).toNat : Int)
    else if x = NUL then 0
    else strcmp a b.tail

/-- Store into a 20-element character buffer (`buf[idx] = c`); undefined
outside the array. -/
def store (buf : List Char) (idx : Nat) (c : Char) : Option (List Char) :=
  if idx < 20 then some (buf.set idx c) else none

/-! ## Command registry -/

/-- Lines 189-207. -/
def getSystemKey (systemType : List Char) : Int :=
  if strcmp systemType "tvset1".toList = 0 then 0
  else if strcmp systemType "tvset2".toList = 0 then 1
  else if strcmp systemType "vcr1".toList = 0 then 5
  else if strcmp systemType "vcr2".toList = 0 then 6
  else if strcmp systemType "cdvideo".toList = 0 then 12
  else if strcmp systemType "casseterecorder".toList = 0 then 18
  else if strcmp systemType "cd".toList = 0 then 20
  else -1

/-- Lines 216-252. -/
def getCommandKey (command : List Char) : Int :=
  if strcmp command "standby".toList = 0 then 12
  else if strcmp command "mute".toList = 0 then 13
  else if strcmp command "volumeup".toList = 0 then 16
  else if strcmp command "volumedown".toList = 0 then 17
  else if strcmp command "brightnessup".toList = 0 then 18
  else if strcmp command "brightnessdown".toList = 0 then 19
  else if strcmp command "pause".toList = 0 then 48
  else if strcmp command "fastreverse".toList = 0 then 50
  else if strcmp command "fastforward".toList = 0 then 52
  else if strcmp command "play".toList = 0 then 53
  else if strcmp command "stop".toList = 0 then 54
  else if strcmp command "record".toList = 0 then 55
  else if strcmp command "menuon".toList = 0 then 82
  else if strcmp command "menuoff".toList = 0 then 83
  else if strcmp command "ledon".toList = 0 then 500
  else if strcmp command "ledoff".toList = 0 then 501
  else 0

/-- The device names of the registry. -/
def systemNames : List (List Char) :=
  ["tvset1".toList, "tvset2".toList, "vcr1".toList, "vcr2".toList,
   "cdvideo".toList, "casseterecorder".toList, "cd".toList]

/-- The command names of the registry. -/
def commandNames : List (List Char) :=
  ["standby".toList, "mute".toList, "volumeup".toList, "volumedown".toList,
   "brightnessup".toList, "brightnessdown".toList, "pause".toList,
   "fastreverse".toList, "fastforward".toList, "play".toList, "stop".toList,
   "record".toList, "menuon".toList, "menuoff".toList, "ledon".toList,
   "ledoff".toList]

/-! ## Waveform encoder -/

/-- One pass through the body of the carrier loop of `oscillate`. -/
def carrierCycle : List Event :=
  [.digitalWrite irPin .HIGH, .delayMicroseconds 10,
   .digitalWrite irPin .LOW, .delayMicroseconds 10]

/-- The loop `while (loopTime <= halfOscillationTimeCalib) { ...; loopTime += 20; }`
run with a bound on the number of iterations; `none` when the bound is
reached before the loop condition fails. -/
def carrierLoop : Nat → Int → Option (List Event)
  | 0, _ => none
  | fuel + 1, loopTime =>
    if loopTime ≤ halfOscillationTimeCalib then
      (carrierLoop fuel (loopTime + 20)).map (fun rest => carrierCycle ++ rest)
    else some []

/-- Iteration bound handed to `carrierLoop`. -/
def carrierFuel : Nat := 1000

/-- Lines 433-464. -/
def oscillate (bit : Int) : Option (List Event) :=
  if bit ≠ 0 then
    (carrierLoop carrierFuel 0).map (fun burst =>
      [.digitalWrite irPin .LOW, .delayMicroseconds halfOscillationTime] ++ burst)
  else
    (carrierLoop carrierFuel 0).map (fun burst =>
      burst ++ [.digitalWrite irPin .HIGH, .delayMicroseconds halfOscillationTime])

/-- The loop `for (int i = start; i < start + n; i++) Serial.print(irCommand[i]);`. -/
def printLoop (irCommand : List Int) : Nat → Nat → Option (List Event)
  | 0, _ => some []
  | n + 1, i =>
    match irCommand[i]? with
    | none => none
    | some bit => (printLoop irCommand n (i + 1)).map (fun rest => .serialPrintInt bit :: rest)

/-- The loop `for (int i = start; i < start + n; i++) oscillate(irCommand[i]);`. -/
def oscillateLoop (irCommand : List Int) : Nat → Nat → Option (List Event)
  | 0, _ => some []
  | n + 1, i =>
    match irCommand[i]? with
    | none => none
    | some bit =>
      match oscillate bit with
      | none => none
      | some wave => (oscillateLoop irCommand n (i + 1)).map (fun rest => wave ++ rest)

/-- Lines 417-430. -/
def sendIRCommand (irCommand : List Int) : Option (List Event) :=
  match printLoop irCommand 14 0, oscillateLoop irCommand 14 0 with
  | some printed, some waves =>
    some (.serialPrint "IR command is: " :: printed ++ .serialPrintln :: waves)
  | _, _ => none

/-! ## Frame builder -/

/-- The five assignments `irCommand[3..7] = ...` of one `case` of the system switch. -/
def setAddress (f : List Int) (b3 b4 b5 b6 b7 : Int) : List Int :=
  ((((f.set 3 b3).set 4 b4).set 5 b5).set 6 b6).set 7 b7

/-- The six assignments `irCommand[8..13] = ...` of one `case` of the command switch. -/
def setCommand (f : List Int) (b8 b9 b10 b11 b12 b13 : Int) : List Int :=
  (((((f.set 8 b8).set 9 b9).set 10 b10).set 11 b11).set 12 b12).set 13 b13

/-- The switch of lines 268-318; every case ends in `break`. -/
def systemSwitch (systemKey : Int) (f : List Int) : List Int :=
  if systemKey = 0 then setAddress f 0 0 0 0 0
  else if systemKey = 1 then setAddress f 0 0 0 0 1
  else if systemKey = 5 then setAddress f 0 0 1 0 1
  else if systemKey = 6 then setAddress f 0 0 1 1 0
  else if systemKey = 12 then setAddress f 0 1 1 0 0
  else if systemKey = 18 then setAddress f 1 0 0 1 0
  else if systemKey = 20 then setAddress f 1 0 1 0 0
  else f

/-- Case bodies of the switch of lines 369-411, which have no `break`. -/
def case48 (f : List Int) : List Int := setCommand f 1 1 0 0 0 0
def case50 (f : List Int) : List Int := setCommand f 1 1 0 0 0 0
def case52 (f : List Int) : List Int := setCommand f 1 1 0 1 0 0
def case53 (f : List Int) : List Int := setCommand f 1 1 0 1 0 1
def case54 (f : List Int) : List Int := setCommand f 1 1 0 1 1 0
def case55 (f : List Int) : List Int := setCommand f 1 1 0 1 1 1

/-- The switch of lines 320-411.  Cases 12 to 19 end in `break`; cases 48 to 55
fall through to the end of the switch. -/
def commandSwitch (commandKey : Int) (f : List Int) : List Int :=
  if commandKey = 12 then setCommand f 0 0 1 1 0 0
  else if commandKey = 13 then setCommand f 0 0 1 1 0 1
  else if commandKey = 16 then setCommand f 0 1 0 0 0 0
  else if commandKey = 17 then setCommand f 0 1 0 0 0 1
  else if commandKey = 18 then setCommand f 0 1 0 0 1 0
  else if commandKey = 19 then setCommand f 0 1 0 0 1 1
  else if commandKey = 48 then case55 (case54 (case53 (case52 (case50 (case48 f)))))
  else if commandKey = 50 then case55 (case54 (case53 (case52 (case50 f))))
  else if commandKey = 52 then case55 (case54 (case53 (case52 f)))
  else if commandKey = 53 then case55 (case54 (case53 f))
  else if commandKey = 54 then case55 (case54 f)
  else if commandKey = 55 then case55 f
  else f

/-- Lines 264-411: the assignments to `irCommand` in the infrared branch of
`processCommand`, starting from the array contents `f`. -/
def buildFrame (f : List Int) (checkBit systemKey commandKey : Int) : List Int :=
  commandSwitch commandKey (systemSwitch systemKey (((f.set 0 1).set 1 1).set 2 checkBit))

/-- Lines 255-415.  Returns the globals after the call and the library calls made. -/
def processCommand (g : Globals) (systemKey commandKey : Int) :
    Option (Globals × List Event) :=
  if commandKey = 500 then some (g, [.digitalWrite irPin .HIGH])
  else if commandKey = 501 then some (g, [.digitalWrite irPin .LOW])
  else
    let f := buildFrame g.irCommand g.checkBit systemKey commandKey
    (sendIRCommand f).map (fun tr => ({ g with irCommand := f }, tr))

/-! ## Request parser and dispatcher -/

/-- The four `client.println` calls of a response with the given body. -/
def response (body : String) : List Event :=
  [.clientPrintln "HTTP/1.1 200 OK", .clientPrintln "Content-Type:text/html",
   .clientPrintln "", .clientPrintln body]

def passResponse : List Event := response "<H4>PASS</H4>"
def failResponse : List Event := response "<H4>FAIL</H4>"

/-- Lines 164-170: the parser globals are put back to their defaults. -/
def resetParser (g : Globals) : Globals :=
  { g with
    readSystemType := false, systemTypeReadComplete := false,
    readCommand := false, commandReadComplete := false, i := 0, j := 0 }

/-- Lines 126-170: the end-of-request branch of the loop body, up to the `break`. -/
def resolve (g : Globals) : Option (Globals × List Event) :=
  let systemKey := getSystemKey g.systemType
  if systemKey ≠ -1 then
    let commandKey := getCommandKey g.command
    if commandKey ≠ 0 then
      let g1 := { g with checkBit := if g.checkBit ≠ 0 then 0 else 1 }
      (processCommand g1 systemKey commandKey).map
        (fun r => (resetParser r.1, passResponse ++ r.2))
    else some (resetParser g, failResponse)
  else some (resetParser g, failResponse)

/-- What one pass through the body of `while (client.connected())` does. -/
inductive Step
  | next (g : Globals) (currentLineIsBlank : Bool)
  | stop (g : Globals) (out : List Event)
  deriving DecidableEq, Repr

/-- Lines 85-176: the loop body for one character `c` read from the client. -/
def loopBody (g : Globals) (currentLineIsBlank : Bool) (c : Char) : Option Step :=
  if g.readSystemType && !g.systemTypeReadComplete then
    if c = '/' then
      (store g.systemType g.i NUL).map (fun buf =>
        .next { g with systemType := buf, readCommand := true,
                       systemTypeReadComplete := true } currentLineIsBlank)
    else
      (store g.systemType g.i c).map (fun buf =>
        .next { g with systemType := buf, i := g.i + 1 } currentLineIsBlank)
  else if g.readCommand && !g.commandReadComplete then
    if c = ' ' then
      (store g.command g.j NUL).map (fun buf =>
        .next { g with command := buf, commandReadComplete := true } currentLineIsBlank)
    else
      (store g.command g.j c).map (fun buf =>
        .next { g with command := buf, j := g.j + 1 } currentLineIsBlank)
  else if c = '/' then
    some (.next { g with readSystemType := true } currentLineIsBlank)
  else if c = '\n' && currentLineIsBlank then
    (resolve g).map (fun r => .stop r.1 r.2)
  else if c = '\n' then
    some (.next g true)
  else if c ≠ '\r' then
    some (.next g false)
  else
    some (.next g currentLineIsBlank)

/-- How the `while` loop over one client ended. -/
inductive Served
  | waiting (g : Globals) (currentLineIsBlank : Bool)
  | answered (g : Globals) (out : List Event) (unread : List Char)
  deriving DecidableEq, Repr

/-- The loop `while (client.connected())` over the characters the client
sends: it runs until the `break` of the end-of-request branch (`answered`,
with the characters not read) or until the input is used up (`waiting`). -/
def whileConnected (g : Globals) (currentLineIsBlank : Bool) :
    List Char → Option Served
  | [] => some (.waiting g currentLineIsBlank)
  | c :: rest =>
    match loopBody g currentLineIsBlank c with
    | none => none
    | some (.next g1 blank1) => whileConnected g1 blank1 rest
    | some (.stop g1 out) => some (.answered g1 out rest)

/-- The globals at the end of the `while` loop. -/
def Served.globals : Served → Globals
  | .waiting g _ => g
  | .answered g _ _ => g

/-- Lines 74-181: one call of `loop()` with a client that sends `input`;
`currentLineIsBlank` starts out true. -/
def loop (g : Globals) (input : List Char) : Option Served :=
  whileConnected g true input

/-- The request `GET /<device>/<command> HTTP/1.1` followed by a blank line. -/
def request (device command : List Char) : List Char :=
  "GET /".toList ++ device ++ '/' :: command ++ " HTTP/1.1\r\n\r\n".toList


/-! ## Observations on traces and frames -/

/-- The sum of the arguments of the `delayMicroseconds` calls of a trace. -/
def delaySum : List Event → Int
  | [] => 0
  | .delayMicroseconds us :: tr => us + delaySum tr
  | _ :: tr => delaySum tr

/-- The level of the last `digitalWrite` of a trace, if it has one. -/
def lastWrite : List Event → Option Level
  | [] => none
  | e :: tr =>
    match lastWrite tr with
    | some level => some level
    | none =>
      match e with
      | .digitalWrite _ level => some level
      | _ => none

/-- The library calls made before the `while` loop ended. -/
def Served.out : Served → List Event
  | .waiting _ _ => []
  | .answered _ out _ => out

/-- Stated from the claim, not from the source: the `width`-bit binary
representation of `n`, most significant bit first. -/
def bitsMSB : Nat → Nat → List Int
  | 0, _ => []
  | width + 1, n => ((n / 2 ^ width % 2 : Nat) : Int) :: bitsMSB width n

/-- The four parser flags are in one of the combinations the loop body can
produce: idle, reading the device token, reading the command token, complete. -/
def Globals.Phase (g : Globals) : Prop :=
  (g.readSystemType, g.systemTypeReadComplete, g.readCommand, g.commandReadComplete) ∈
    [(false, false, false, false), (true, false, false, false),
     (true, true, true, false), (true, true, true, true)]

instance (g : Globals) : Decidable g.Phase := by
  unfold Globals.Phase; infer_instance

/-! ## Strings and the registry -/

theorem char_toNat_inj {c d : Char} (h : c.toNat = d.toNat) : c = d := by
  rw [← Char.ofNat_toNat c, ← Char.ofNat_toNat d, h]

theorem char_sub_eq_zero {c d : Char} : ((c.toNat : Int) - (d.toNat : Int) = 0) ↔ c = d := by
  constructor
  · intro h
    apply char_toNat_inj
    omega
  · intro h
    subst h
    omega

theorem cstr_nil : cstr [] = [] := rfl

theorem cstr_cons (x : Char) (a : List Char) :
    cstr (x :: a) = if x = NUL then [] else x :: cstr a := by
  simp only [cstr, List.takeWhile_cons]
  by_cases h : x = NUL <;> simp [h]

theorem strcmp_eq_zero (a b : List Char) : strcmp a b = 0 ↔ cstr a = cstr b := by
  induction a generalizing b with
  | nil =>
    cases b with
    | nil => simp [strcmp, headChar, cstr_nil, NUL]
    | cons y b =>
      have h0 : ((0 : Int) - (y.toNat : Int) = 0) ↔ NUL = y := by
        have := @char_sub_eq_zero NUL y
        simpa [NUL] using this
      simp only [strcmp, headChar, List.headD_cons, cstr_nil, cstr_cons, h0]
      by_cases hy : y = NUL
      · simp [hy]
      · have : ¬ NUL = y := fun h => hy h.symm
        simp [hy, this]
  | cons x a ih =>
    cases b with
    | nil =>
      simp only [strcmp, headChar, List.headD_nil, cstr_nil, cstr_cons, List.tail_nil]
      by_cases hx : x = NUL
      · simp [hx]
      · simp [hx, char_sub_eq_zero]
    | cons y b =>
      simp only [strcmp, headChar, List.headD_cons, cstr_cons, List.tail_cons]
      by_cases hxy : x = y
      · subst hxy
        by_cases hx : x = NUL
        · simp [hx]
        · simp [hx, ih]
      · have hsub : ¬ ((x.toNat : Int) - (y.toNat : Int) = 0) := fun h => hxy (char_sub_eq_zero.mp h)
        by_cases hx : x = NUL
        · have hy : ¬ y = NUL := fun h => hxy (hx.trans h.symm)
          rw [if_pos hxy, if_pos hx, if_neg hy]
          simp [hsub]
        · by_cases hy : y = NUL
          · rw [if_pos hxy, if_neg hx, if_pos hy]
            simp [hsub]
          · rw [if_pos hxy, if_neg hx, if_neg hy]
            simp [hsub, hxy]


theorem cstr_of_no_nul (s : List Char) (h : NUL ∉ s) : cstr s = s := by
  unfold cstr
  rw [List.takeWhile_eq_self_iff]
  intro c hc
  have : c ≠ NUL := fun e => h (e ▸ hc)
  simpa using this

/-- `strcmp` against a NUL-free literal is zero exactly when the array holds that string. -/
theorem strcmp_literal (s lit : List Char) (h : cstr lit = lit) :
    strcmp s lit = 0 ↔ cstr s = lit := by
  rw [strcmp_eq_zero, h]

theorem getSystemKey_eq (s : List Char) :
    getSystemKey s =
      if cstr s = "tvset1".toList then 0
      else if cstr s = "tvset2".toList then 1
      else if cstr s = "vcr1".toList then 5
      else if cstr s = "vcr2".toList then 6
      else if cstr s = "cdvideo".toList then 12
      else if cstr s = "casseterecorder".toList then 18
      else if cstr s = "cd".toList then 20
      else -1 := by
  unfold getSystemKey
  simp only [strcmp_literal s _ (by decide : cstr "tvset1".toList = "tvset1".toList),
    strcmp_literal s _ (by decide : cstr "tvset2".toList = "tvset2".toList),
    strcmp_literal s _ (by decide : cstr "vcr1".toList = "vcr1".toList),
    strcmp_literal s _ (by decide : cstr "vcr2".toList = "vcr2".toList),
    strcmp_literal s _ (by decide : cstr "cdvideo".toList = "cdvideo".toList),
    strcmp_literal s _ (by decide : cstr "casseterecorder".toList = "casseterecorder".toList),
    strcmp_literal s _ (by decide : cstr "cd".toList = "cd".toList)]

theorem getCommandKey_eq (s : List Char) :
    getCommandKey s =
      if cstr s = "standby".toList then 12
      else if cstr s = "mute".toList then 13
      else if cstr s = "volumeup".toList then 16
      else if cstr s = "volumedown".toList then 17
      else if cstr s = "brightnessup".toList then 18
      else if cstr s = "brightnessdown".toList then 19
      else if cstr s = "pause".toList then 48
      else if cstr s = "fastreverse".toList then 50
      else if cstr s = "fastforward".toList then 52
      else if cstr s = "play".toList then 53
      else if cstr s = "stop".toList then 54
      else if cstr s = "record".toList then 55
      else if cstr s = "menuon".toList then 82
      else if cstr s = "menuoff".toList then 83
      else if cstr s = "ledon".toList then 500
      else if cstr s = "ledoff".toList then 501
      else 0 := by
  unfold getCommandKey
  simp only [strcmp_literal s _ (by decide : cstr "standby".toList = "standby".toList),
    strcmp_literal s _ (by decide : cstr "mute".toList = "mute".toList),
    strcmp_literal s _ (by decide : cstr "volumeup".toList = "volumeup".toList),
    strcmp_literal s _ (by decide : cstr "volumedown".toList = "volumedown".toList),
    strcmp_literal s _ (by decide : cstr "brightnessup".toList = "brightnessup".toList),
    strcmp_literal s _ (by decide : cstr "brightnessdown".toList = "brightnessdown".toList),
    strcmp_literal s _ (by decide : cstr "pause".toList = "pause".toList),
    strcmp_literal s _ (by decide : cstr "fastreverse".toList = "fastreverse".toList),
    strcmp_literal s _ (by decide : cstr "fastforward".toList = "fastforward".toList),
    strcmp_literal s _ (by decide : cstr "play".toList = "play".toList),
    strcmp_literal s _ (by decide : cstr "stop".toList = "stop".toList),
    strcmp_literal s _ (by decide : cstr "record".toList = "record".toList),
    strcmp_literal s _ (by decide : cstr "menuon".toList = "menuon".toList),
    strcmp_literal s _ (by decide : cstr "menuoff".toList = "menuoff".toList),
    strcmp_literal s _ (by decide : cstr "ledon".toList = "ledon".toList),
    strcmp_literal s _ (by decide : cstr "ledoff".toList = "ledoff".toList)]

/-- C1. `getSystemKey` is an exact, case-sensitive lookup: it returns 0, 1, 5,
6, 12, 18, 20 exactly when the array holds the string `tvset1`, `tvset2`,
`vcr1`, `vcr2`, `cdvideo`, `casseterecorder`, `cd` respectively, and -1
exactly when it holds any other string; the empty string, a prefix, an
extension and case variants of a name are among the latter. -/
theorem getSystemKey_table (s : List Char) :
    (getSystemKey s = 0 ↔ cstr s = "tvset1".toList) ∧
    (getSystemKey s = 1 ↔ cstr s = "tvset2".toList) ∧
    (getSystemKey s = 5 ↔ cstr s = "vcr1".toList) ∧
    (getSystemKey s = 6 ↔ cstr s = "vcr2".toList) ∧
    (getSystemKey s = 12 ↔ cstr s = "cdvideo".toList) ∧
    (getSystemKey s = 18 ↔ cstr s = "casseterecorder".toList) ∧
    (getSystemKey s = 20 ↔ cstr s = "cd".toList) ∧
    (getSystemKey s = -1 ↔ cstr s ∉ systemNames) ∧
    getSystemKey [] = -1 ∧
    getSystemKey "c".toList = -1 ∧
    getSystemKey "cd1".toList = -1 ∧
    getSystemKey "CD".toList = -1 ∧
    getSystemKey "TVset1".toList = -1 := by
  rw [getSystemKey_eq]
  generalize cstr s = n
  by_cases hmem : n ∈ systemNames
  · simp only [systemNames, List.mem_cons, List.not_mem_nil, or_false] at hmem
    rcases hmem with h | h | h | h | h | h | h <;> (subst n; decide)
  · have hnot := hmem
    simp only [systemNames, List.mem_cons, List.not_mem_nil, or_false, not_or] at hnot
    obtain ⟨h1, h2, h3, h4, h5, h6, h7⟩ := hnot
    rw [if_neg h1, if_neg h2, if_neg h3, if_neg h4, if_neg h5, if_neg h6, if_neg h7]
    refine ⟨?_, ?_, ?_, ?_, ?_, ?_, ?_, ⟨fun _ => hmem, fun _ => rfl⟩,
      by decide, by decide, by decide, by decide, by decide⟩
    all_goals exact ⟨fun h => absurd h (by decide), fun h => absurd h (by assumption)⟩

/-- C2. `getCommandKey` is an exact lookup: it returns 12, 13, 16, 17, 18, 19,
48, 50, 52, 53, 54, 55, 82, 83, 500, 501 exactly when the array holds
`standby`, `mute`, `volumeup`, `volumedown`, `brightnessup`, `brightnessdown`,
`pause`, `fastreverse`, `fastforward`, `play`, `stop`, `record`, `menuon`,
`menuoff`, `ledon`, `ledoff` respectively, and it returns 0 exactly when the
array holds a string outside the table. -/
theorem getCommandKey_table (s : List Char) :
    (getCommandKey s = 12 ↔ cstr s = "standby".toList) ∧
    (getCommandKey s = 13 ↔ cstr s = "mute".toList) ∧
    (getCommandKey s = 16 ↔ cstr s = "volumeup".toList) ∧
    (getCommandKey s = 17 ↔ cstr s = "volumedown".toList) ∧
    (getCommandKey s = 18 ↔ cstr s = "brightnessup".toList) ∧
    (getCommandKey s = 19 ↔ cstr s = "brightnessdown".toList) ∧
    (getCommandKey s = 48 ↔ cstr s = "pause".toList) ∧
    (getCommandKey s = 50 ↔ cstr s = "fastreverse".toList) ∧
    (getCommandKey s = 52 ↔ cstr s = "fastforward".toList) ∧
    (getCommandKey s = 53 ↔ cstr s = "play".toList) ∧
    (getCommandKey s = 54 ↔ cstr s = "stop".toList) ∧
    (getCommandKey s = 55 ↔ cstr s = "record".toList) ∧
    (getCommandKey s = 82 ↔ cstr s = "menuon".toList) ∧
    (getCommandKey s = 83 ↔ cstr s = "menuoff".toList) ∧
    (getCommandKey s = 500 ↔ cstr s = "ledon".toList) ∧
    (getCommandKey s = 501 ↔ cstr s = "ledoff".toList) ∧
    (getCommandKey s = 0 ↔ cstr s ∉ commandNames) ∧
    getCommandKey [] = 0 ∧
    getCommandKey "mut".toList = 0 ∧
    getCommandKey "mutes".toList = 0 ∧
    getCommandKey "Mute".toList = 0 := by
  rw [getCommandKey_eq]
  generalize cstr s = n
  by_cases hmem : n ∈ commandNames
  · simp only [commandNames, List.mem_cons, List.not_mem_nil, or_false] at hmem
    rcases hmem with h | h | h | h | h | h | h | h | h | h | h | h | h | h | h | h <;>
      (subst n; decide)
  · have hnot := hmem
    simp only [commandNames, List.mem_cons, List.not_mem_nil, or_false, not_or] at hnot
    obtain ⟨h1, h2, h3, h4, h5, h6, h7, h8, h9, h10, h11, h12, h13, h14, h15, h16⟩ := hnot
    rw [if_neg h1, if_neg h2, if_neg h3, if_neg h4, if_neg h5, if_neg h6, if_neg h7, if_neg h8, if_neg h9, if_neg h10, if_neg h11, if_neg h12, if_neg h13, if_neg h14, if_neg h15, if_neg h16]
    refine ⟨?_, ?_, ?_, ?_, ?_, ?_, ?_, ?_, ?_, ?_, ?_, ?_, ?_, ?_, ?_, ?_, ⟨fun _ => hmem, fun _ => rfl⟩,
      by decide, by decide, by decide, by decide⟩
    all_goals exact ⟨fun h => absurd h (by decide), fun h => absurd h (by assumption)⟩


/-! ## The request parser -/

theorem whileConnected_append (g : Globals) (b : Bool) (xs ys : List Char) :
    whileConnected g b (xs ++ ys) =
      match whileConnected g b xs with
      | none => none
      | some (.waiting g1 b1) => whileConnected g1 b1 ys
      | some (.answered g1 out unread) => some (.answered g1 out (unread ++ ys)) := by
  induction xs generalizing g b with
  | nil => simp [whileConnected]
  | cons x xs ih =>
    simp only [List.cons_append, whileConnected]
    cases h : loopBody g b x with
    | none => rfl
    | some st =>
      cases st with
      | next g1 b1 => exact ih g1 b1
      | stop g1 out => rfl

theorem whileConnected_cons_next {g : Globals} {b : Bool} {x : Char} {g1 : Globals}
    {b1 : Bool} (h : loopBody g b x = some (.next g1 b1)) (xs : List Char) :
    whileConnected g b (x :: xs) = whileConnected g1 b1 xs := by
  simp only [whileConnected, h]

theorem whileConnected_cons_stop {g : Globals} {b : Bool} {x : Char} {g1 : Globals}
    {out : List Event} (h : loopBody g b x = some (.stop g1 out)) (xs : List Char) :
    whileConnected g b (x :: xs) = some (.answered g1 out xs) := by
  simp only [whileConnected, h]

theorem whileConnected_waiting_append {g : Globals} {b : Bool} {xs : List Char}
    {g1 : Globals} {b1 : Bool} (h : whileConnected g b xs = some (.waiting g1 b1))
    (ys : List Char) : whileConnected g b (xs ++ ys) = whileConnected g1 b1 ys := by
  rw [whileConnected_append, h]

theorem whileConnected_prefix_waiting {g : Globals} {b : Bool} {xs ys : List Char}
    {g1 : Globals} {b1 : Bool} (h : whileConnected g b (xs ++ ys) = some (.waiting g1 b1)) :
    ∃ g2 b2, whileConnected g b xs = some (.waiting g2 b2) := by
  rw [whileConnected_append] at h
  cases hx : whileConnected g b xs with
  | none => rw [hx] at h; cases h
  | some r =>
    cases r with
    | waiting g2 b2 => exact ⟨g2, b2, rfl⟩
    | answered g2 out u => rw [hx] at h; cases h

theorem set_length_append {α : Type} (pre : List α) (r : α) (rest : List α) (c : α) :
    (pre ++ r :: rest).set pre.length c = pre ++ c :: rest := by
  induction pre with
  | nil => rfl
  | cons p pre ih => simp [List.set, ih]

/-- Reading the device token: every character other than `/` is stored at `i`. -/
theorem whileConnected_device (d : List Char) (hd : '/' ∉ d) :
    ∀ (pre rest cmd : List Char) (f3 f4 b : Bool) (j : Nat) (cb : Int) (irc : List Int),
      pre.length + d.length ≤ 20 → d.length ≤ rest.length →
      whileConnected ⟨pre ++ rest, cmd, true, false, f3, f4, pre.length, j, cb, irc⟩ b d =
        some (.waiting ⟨pre ++ d ++ rest.drop d.length, cmd, true, false, f3, f4,
          pre.length + d.length, j, cb, irc⟩ b) := by
  induction d with
  | nil =>
    intro pre rest cmd f3 f4 b j cb irc _ _
    simp [whileConnected]
  | cons x d ih =>
    intro pre rest cmd f3 f4 b j cb irc hlen hrest
    have hx : x ≠ '/' := fun e => hd (e ▸ List.mem_cons_self _ _)
    have hd1 : '/' ∉ d := fun e => hd (List.mem_cons_of_mem _ e)
    cases rest with
    | nil => simp at hrest
    | cons r rest =>
      simp only [List.length_cons] at hlen hrest
      have hlt : pre.length < 20 := by omega
      have hstep : loopBody ⟨pre ++ r :: rest, cmd, true, false, f3, f4, pre.length, j, cb, irc⟩
          b x = some (.next ⟨pre ++ x :: rest, cmd, true, false, f3, f4, pre.length + 1, j, cb,
            irc⟩ b) := by
        simp only [loopBody, Bool.not_false, Bool.and_self, if_true, if_neg hx, store,
          if_pos hlt, Option.map_some', set_length_append]
      simp only [whileConnected, hstep]
      have := ih hd1 (pre ++ [x]) rest cmd f3 f4 b j cb irc (by simp; omega) (by omega)
      simp only [List.length_append, List.length_singleton, List.append_assoc,
        List.singleton_append] at this
      rw [this]
      simp [Nat.add_assoc, Nat.add_comm 1]

/-- Reading the command token: every character other than a space is stored at `j`. -/
theorem whileConnected_command (c : List Char) (hc : ' ' ∉ c) :
    ∀ (sys pre rest : List Char) (f1 f2 b : Bool) (i : Nat) (cb : Int) (irc : List Int),
      (f1 && !f2) = false →
      pre.length + c.length ≤ 20 → c.length ≤ rest.length →
      whileConnected ⟨sys, pre ++ rest, f1, f2, true, false, i, pre.length, cb, irc⟩ b c =
        some (.waiting ⟨sys, pre ++ c ++ rest.drop c.length, f1, f2, true, false, i,
          pre.length + c.length, cb, irc⟩ b) := by
  induction c with
  | nil =>
    intro sys pre rest f1 f2 b i cb irc _ _ _
    simp [whileConnected]
  | cons x c ih =>
    intro sys pre rest f1 f2 b i cb irc hf hlen hrest
    have hx : x ≠ ' ' := fun e => hc (e ▸ List.mem_cons_self _ _)
    have hc1 : ' ' ∉ c := fun e => hc (List.mem_cons_of_mem _ e)
    cases rest with
    | nil => simp at hrest
    | cons r rest =>
      simp only [List.length_cons] at hlen hrest
      have hlt : pre.length < 20 := by omega
      have hstep : loopBody ⟨sys, pre ++ r :: rest, f1, f2, true, false, i, pre.length, cb, irc⟩
          b x = some (.next ⟨sys, pre ++ x :: rest, f1, f2, true, false, i, pre.length + 1, cb,
            irc⟩ b) := by
        simp only [loopBody, hf, Bool.not_false, Bool.and_self, if_true, if_neg hx, store,
          if_pos hlt, Option.map_some', set_length_append, Bool.false_eq_true, if_false]
      simp only [whileConnected, hstep]
      have := ih hc1 sys (pre ++ [x]) rest f1 f2 b i cb irc hf (by simp; omega) (by omega)
      simp only [List.length_append, List.length_singleton, List.append_assoc,
        List.singleton_append] at this
      rw [this]
      simp [Nat.add_assoc, Nat.add_comm 1]


theorem whileConnected_get (sys cmd : List Char) (cb : Int) (irc : List Int) :
    whileConnected ⟨sys, cmd, false, false, false, false, 0, 0, cb, irc⟩ true "GET /".toList =
      some (.waiting ⟨sys, cmd, true, false, false, false, 0, 0, cb, irc⟩ false) := by
  rfl

theorem whileConnected_version (sys cmd : List Char) (i j : Nat) (cb : Int) (irc : List Int)
    (b : Bool) :
    whileConnected ⟨sys, cmd, true, true, true, true, i, j, cb, irc⟩ b
        "HTTP/1.1\r\n\r".toList =
      some (.waiting ⟨sys, cmd, true, true, true, true, i, j, cb, irc⟩ true) := by
  rfl

theorem loopBody_slash (pre : List Char) (r : Char) (rest cmd : List Char) (f3 f4 b : Bool)
    (j : Nat) (cb : Int) (irc : List Int) (h : pre.length < 20) :
    loopBody ⟨pre ++ r :: rest, cmd, true, false, f3, f4, pre.length, j, cb, irc⟩ b '/' =
      some (.next ⟨pre ++ NUL :: rest, cmd, true, true, true, f4, pre.length, j, cb, irc⟩ b) := by
  simp only [loopBody, Bool.not_false, Bool.and_self, if_true, store, if_pos h,
    Option.map_some', set_length_append]

theorem loopBody_space (sys pre : List Char) (r : Char) (rest : List Char) (b : Bool)
    (i : Nat) (cb : Int) (irc : List Int) (h : pre.length < 20) :
    loopBody ⟨sys, pre ++ r :: rest, true, true, true, false, i, pre.length, cb, irc⟩ b ' ' =
      some (.next ⟨sys, pre ++ NUL :: rest, true, true, true, true, i, pre.length, cb, irc⟩ b) := by
  simp only [loopBody, Bool.not_false, Bool.not_true, Bool.and_self, Bool.and_false, if_true,
    store, if_pos h, Option.map_some', set_length_append, Bool.false_eq_true, if_false]

theorem loopBody_newline_complete (g : Globals) (h1 : g.readSystemType = true)
    (h2 : g.systemTypeReadComplete = true) (h3 : g.readCommand = true)
    (h4 : g.commandReadComplete = true) :
    loopBody g true '\n' = (resolve g).map (fun r => Step.stop r.1 r.2) := by
  have e1 : ('\n' = '/') = False := by decide
  simp [loopBody, h1, h2, h3, h4, e1]

theorem drop_eq_cons_of_lt {α : Type} (l : List α) (n : Nat) (h : n < l.length) :
    ∃ r, l.drop n = r :: l.drop (n + 1) :=
  ⟨l[n], List.drop_eq_getElem_cons h⟩


/-! ## Totality of the encoder and the dispatcher -/

/-- The carrier loop leaves by its condition after 38 passes, well inside the fuel. -/
theorem carrierLoop_eq :
    carrierLoop carrierFuel 0 = some (List.replicate 38 carrierCycle).flatten := by
  decide

theorem oscillate_eq (bit : Int) :
    oscillate bit =
      some (if bit ≠ 0 then
        [.digitalWrite irPin .LOW, .delayMicroseconds halfOscillationTime] ++
          (List.replicate 38 carrierCycle).flatten
      else
        (List.replicate 38 carrierCycle).flatten ++
          [.digitalWrite irPin .HIGH, .delayMicroseconds halfOscillationTime]) := by
  unfold oscillate
  rw [carrierLoop_eq]
  by_cases h : bit ≠ 0
  · rw [if_pos h, if_pos h]; rfl
  · rw [if_neg h, if_neg h]; rfl

theorem oscillate_pinTrace (bit : Int) (w : List Event) (h : oscillate bit = some w) :
    pinTrace w = w := by
  rw [oscillate_eq] at h
  by_cases hb : bit ≠ 0
  · rw [if_pos hb] at h
    cases h
    decide
  · rw [if_neg hb] at h
    cases h
    decide

theorem printLoop_total (f : List Int) :
    ∀ (n i : Nat), i + n ≤ f.length →
      ∃ ps, printLoop f n i = some ps ∧ pinTrace ps = [] := by
  intro n
  induction n with
  | zero => intro i _; exact ⟨[], rfl, rfl⟩
  | succ n ih =>
    intro i h
    have hi : i < f.length := by omega
    obtain ⟨ps, hps, hp⟩ := ih (i + 1) (by omega)
    refine ⟨.serialPrintInt f[i] :: ps, ?_, ?_⟩
    · simp only [printLoop, List.getElem?_eq_getElem hi, hps, Option.map_some']
    · simpa [pinTrace, Event.isPin] using hp

theorem oscillateLoop_total (f : List Int) :
    ∀ (n i : Nat), i + n ≤ f.length →
      ∃ ws : List (List Event), ws.length = n ∧
        (∀ k, k < n → (f[i + k]?).bind oscillate = some (ws.getD k [])) ∧
        oscillateLoop f n i = some ws.flatten := by
  intro n
  induction n with
  | zero => intro i _; exact ⟨[], rfl, fun k hk => absurd hk (Nat.not_lt_zero k), rfl⟩
  | succ n ih =>
    intro i h
    have hi : i < f.length := by omega
    obtain ⟨ws, hlen, hws, hloop⟩ := ih (i + 1) (by omega)
    obtain ⟨w, hw⟩ : ∃ w, oscillate f[i] = some w := ⟨_, oscillate_eq _⟩
    refine ⟨w :: ws, by simp [hlen], ?_, ?_⟩
    · intro k hk
      cases k with
      | zero => simp [List.getElem?_eq_getElem hi, hw]
      | succ k =>
        have := hws k (by omega)
        simpa [Nat.add_assoc, Nat.add_comm 1 k] using this
    · simp only [oscillateLoop, List.getElem?_eq_getElem hi, hw, hloop, Option.map_some',
        List.flatten_cons]

theorem sendIRCommand_total (f : List Int) (h : f.length = 14) :
    ∃ tr, sendIRCommand f = some tr := by
  obtain ⟨ps, hps, _⟩ := printLoop_total f 14 0 (by omega)
  obtain ⟨ws, _, _, hws⟩ := oscillateLoop_total f 14 0 (by omega)
  rw [sendIRCommand, hps, hws]
  exact ⟨_, rfl⟩

theorem setAddress_length (f : List Int) (a b c d e : Int) :
    (setAddress f a b c d e).length = f.length := by
  simp only [setAddress, List.length_set]

theorem setCommand_length (f : List Int) (a b c d e g : Int) :
    (setCommand f a b c d e g).length = f.length := by
  simp only [setCommand, List.length_set]

theorem systemSwitch_length (k : Int) (f : List Int) : (systemSwitch k f).length = f.length := by
  simp only [systemSwitch, apply_ite List.length, setAddress_length, ite_self]

theorem commandSwitch_length (k : Int) (f : List Int) :
    (commandSwitch k f).length = f.length := by
  simp only [commandSwitch, apply_ite List.length, case48, case50, case52, case53, case54,
    case55, setCommand_length, ite_self]

theorem buildFrame_length (f : List Int) (t sk ck : Int) :
    (buildFrame f t sk ck).length = f.length := by
  simp only [buildFrame, commandSwitch_length, systemSwitch_length, List.length_set]

theorem processCommand_total (g : Globals) (sk ck : Int) (h : g.irCommand.length = 14) :
    ∃ r, processCommand g sk ck = some r := by
  unfold processCommand
  by_cases h1 : ck = 500
  · rw [if_pos h1]; exact ⟨_, rfl⟩
  · rw [if_neg h1]
    by_cases h2 : ck = 501
    · rw [if_pos h2]; exact ⟨_, rfl⟩
    · rw [if_neg h2]
      obtain ⟨tr, htr⟩ := sendIRCommand_total (buildFrame g.irCommand g.checkBit sk ck)
        (by rw [buildFrame_length, h])
      simp only [htr, Option.map_some']
      exact ⟨_, rfl⟩

theorem resolve_total (g : Globals) (h : g.irCommand.length = 14) :
    ∃ r, resolve g = some r := by
  unfold resolve
  simp only
  by_cases h1 : getSystemKey g.systemType ≠ -1
  · rw [if_pos h1]
    by_cases h2 : getCommandKey g.command ≠ 0
    · rw [if_pos h2]
      obtain ⟨r, hr⟩ := processCommand_total
        { g with checkBit := if g.checkBit ≠ 0 then 0 else 1 }
        (getSystemKey g.systemType) (getCommandKey g.command) h
      rw [hr]
      exact ⟨_, rfl⟩
    · rw [if_neg h2]; exact ⟨_, rfl⟩
  · rw [if_neg h1]; exact ⟨_, rfl⟩


theorem cstr_append_nul (d rest : List Char) (h : NUL ∉ d) : cstr (d ++ NUL :: rest) = d := by
  induction d with
  | nil => simp [cstr_cons]
  | cons x d ih =>
    have hx : x ≠ NUL := fun e => h (e ▸ List.mem_cons_self _ _)
    have hd : NUL ∉ d := fun e => h (List.mem_cons_of_mem _ e)
    rw [List.cons_append, cstr_cons, if_neg hx, ih hd]

theorem request_eq (d c : List Char) :
    request d c =
      "GET /".toList ++ (d ++ ('/' :: (c ++ (' ' :: "HTTP/1.1\r\n\r".toList)))) ++ ['\n'] := by
  simp [request]

theorem request_dropLast (d c : List Char) :
    (request d c).dropLast =
      "GET /".toList ++ (d ++ ('/' :: (c ++ (' ' :: "HTTP/1.1\r\n\r".toList)))) := by
  rw [request_eq, List.dropLast_concat]

/-- Reading everything of a request but its last character. -/
theorem whileConnected_request_dropLast (sys cmd : List Char) (cb : Int) (irc : List Int)
    (d c : List Char) (hs : sys.length = 20) (hm : cmd.length = 20)
    (hd : '/' ∉ d) (hdl : d.length ≤ 19) (hc : ' ' ∉ c) (hcl : c.length ≤ 19) :
    whileConnected ⟨sys, cmd, false, false, false, false, 0, 0, cb, irc⟩ true
        (request d c).dropLast =
      some (.waiting ⟨d ++ NUL :: sys.drop (d.length + 1), c ++ NUL :: cmd.drop (c.length + 1),
        true, true, true, true, d.length, c.length, cb, irc⟩ true) := by
  obtain ⟨r1, hr1⟩ := drop_eq_cons_of_lt sys d.length (by omega)
  obtain ⟨r2, hr2⟩ := drop_eq_cons_of_lt cmd c.length (by omega)
  rw [request_dropLast, whileConnected_waiting_append (whileConnected_get sys cmd cb irc)]
  have hdev := whileConnected_device d hd [] sys cmd false false false 0 cb irc
    (by simp; omega) (by omega)
  simp only [List.nil_append, List.length_nil, Nat.zero_add] at hdev
  rw [whileConnected_waiting_append hdev, hr1]
  have hsl := loopBody_slash d r1 (sys.drop (d.length + 1)) cmd false false false 0 cb irc
    (by omega)
  rw [whileConnected_cons_next hsl]
  have hcmd := whileConnected_command c hc (d ++ NUL :: sys.drop (d.length + 1)) [] cmd
    true true false d.length cb irc rfl (by simp; omega) (by omega)
  simp only [List.nil_append, List.length_nil, Nat.zero_add] at hcmd
  rw [whileConnected_waiting_append hcmd, hr2]
  have hsp := loopBody_space (d ++ NUL :: sys.drop (d.length + 1)) c r2
    (cmd.drop (c.length + 1)) false d.length cb irc (by omega)
  rw [whileConnected_cons_next hsp]
  exact whileConnected_version _ _ _ _ _ _ _

/-- Reading a whole request from the parser's initial state: the loop ends in
the end-of-request branch, run on the globals that hold the two tokens. -/
theorem loop_request_eq (sys cmd : List Char) (cb : Int) (irc : List Int)
    (d c : List Char) (hs : sys.length = 20) (hm : cmd.length = 20)
    (hd : '/' ∉ d) (hdl : d.length ≤ 19) (hc : ' ' ∉ c) (hcl : c.length ≤ 19) :
    loop ⟨sys, cmd, false, false, false, false, 0, 0, cb, irc⟩ (request d c) =
      (resolve ⟨d ++ NUL :: sys.drop (d.length + 1), c ++ NUL :: cmd.drop (c.length + 1),
        true, true, true, true, d.length, c.length, cb, irc⟩).map
        (fun r => Served.answered r.1 r.2 []) := by
  have hrun := whileConnected_request_dropLast sys cmd cb irc d c hs hm hd hdl hc hcl
  have hnl := loopBody_newline_complete
    ⟨d ++ NUL :: sys.drop (d.length + 1), c ++ NUL :: cmd.drop (c.length + 1),
      true, true, true, true, d.length, c.length, cb, irc⟩ rfl rfl rfl rfl
  have hsplit : request d c = (request d c).dropLast ++ ['\n'] := by
    rw [request_dropLast, ← request_eq]
  rw [loop, hsplit, whileConnected_waiting_append hrun]
  cases hr : resolve ⟨d ++ NUL :: sys.drop (d.length + 1),
      c ++ NUL :: cmd.drop (c.length + 1), true, true, true, true, d.length, c.length, cb,
      irc⟩ with
  | none =>
    rw [hr] at hnl
    simp only [whileConnected, hnl, Option.map_none']
  | some r =>
    rw [hr, Option.map_some'] at hnl
    exact whileConnected_cons_stop hnl []

/-- C3. From the parser's initial state (all four flags false, `i = j = 0`,
`currentLineIsBlank` true, any buffer contents), a request
`GET /d/c HTTP/1.1` followed by a blank line, with `d` free of `/` and `c` free
of spaces and both at most 19 characters long, is read character by character
without leaving the loop until its last character; at that point the device
buffer holds `d` and the command buffer holds `c` (each followed by its
terminator), and the last character takes the end-of-request branch, which
ends the loop with nothing left unread. -/
theorem loop_request (g : Globals) (d c : List Char) (hwf : g.WF)
    (h1 : g.readSystemType = false) (h2 : g.systemTypeReadComplete = false)
    (h3 : g.readCommand = false) (h4 : g.commandReadComplete = false)
    (hi : g.i = 0) (hj : g.j = 0)
    (hd : '/' ∉ d) (hdl : d.length ≤ 19) (hc : ' ' ∉ c) (hcl : c.length ≤ 19) :
    ∃ g1 : Globals,
      g1 = ⟨d ++ NUL :: g.systemType.drop (d.length + 1),
            c ++ NUL :: g.command.drop (c.length + 1),
            true, true, true, true, d.length, c.length, g.checkBit, g.irCommand⟩ ∧
      loop g (request d c).dropLast = some (.waiting g1 true) ∧
      (∀ p, p <+: request d c → p ≠ request d c →
        ∃ g2 b2, loop g p = some (.waiting g2 b2)) ∧
      (NUL ∉ d → cstr g1.systemType = d) ∧
      (NUL ∉ c → cstr g1.command = c) ∧
      ∃ r, resolve g1 = some r ∧
        loopBody g1 true '\n' = some (.stop r.1 r.2) ∧
        loop g (request d c) = some (.answered r.1 r.2 []) := by
  obtain ⟨sys, cmd, f1, f2, f3, f4, i, j, cb, irc⟩ := g
  obtain ⟨hs, hm, hf⟩ := hwf
  simp only at h1 h2 h3 h4 hi hj hs hm hf
  subst h1 h2 h3 h4 hi hj
  have hrun := whileConnected_request_dropLast sys cmd cb irc d c hs hm hd hdl hc hcl
  refine ⟨_, rfl, hrun, ?_, fun h => cstr_append_nul d _ h, fun h => cstr_append_nul c _ h, ?_⟩
  · intro p hp hne
    obtain ⟨t, ht⟩ := hp
    have htne : t ≠ [] := by
      intro e
      rw [e, List.append_nil] at ht
      exact hne ht
    have hdl1 : (request d c).dropLast = p ++ t.dropLast := by
      rw [← ht, List.dropLast_append_of_ne_nil _ htne]
    rw [hdl1] at hrun
    exact whileConnected_prefix_waiting hrun
  · obtain ⟨r, hr⟩ := resolve_total
      ⟨d ++ NUL :: sys.drop (d.length + 1), c ++ NUL :: cmd.drop (c.length + 1),
        true, true, true, true, d.length, c.length, cb, irc⟩ hf
    have hnl := loopBody_newline_complete
      ⟨d ++ NUL :: sys.drop (d.length + 1), c ++ NUL :: cmd.drop (c.length + 1),
        true, true, true, true, d.length, c.length, cb, irc⟩ rfl rfl rfl rfl
    rw [hr, Option.map_some'] at hnl
    refine ⟨r, hr, hnl, ?_⟩
    rw [loop_request_eq sys cmd cb irc d c hs hm hd hdl hc hcl, hr, Option.map_some']

/-- Witness for C3: the request `GET /cd/mute HTTP/1.1` from the start-up globals. -/
theorem loop_request_witness :
    ∃ g1 : Globals,
      loop Globals.init (request "cd".toList "mute".toList).dropLast = some (.waiting g1 true) ∧
      cstr g1.systemType = "cd".toList ∧ cstr g1.command = "mute".toList ∧
      ∃ r, resolve g1 = some r ∧
        loop Globals.init (request "cd".toList "mute".toList) = some (.answered r.1 r.2 []) := by
  obtain ⟨g1, _, hrun, _, hsys, hcmd, r, hr, _, hloop⟩ :=
    loop_request Globals.init "cd".toList "mute".toList (by decide) rfl rfl rfl rfl rfl rfl
      (by decide) (by decide) (by decide) (by decide)
  exact ⟨g1, hrun, hsys (by decide), hcmd (by decide), r, hr, hloop⟩


/-! ## The trace of `sendIRCommand` -/

theorem clientLines_append (a b : List Event) :
    clientLines (a ++ b) = clientLines a ++ clientLines b := by
  induction a with
  | nil => rfl
  | cons e a ih => cases e <;> simp [clientLines, ih]

theorem clientLines_of_isPin (w : List Event) (h : ∀ e ∈ w, e.isPin = true) :
    clientLines w = [] := by
  induction w with
  | nil => rfl
  | cons e w ih =>
    have he := h e (List.mem_cons_self _ _)
    have hw := ih (fun x hx => h x (List.mem_cons_of_mem _ hx))
    cases e <;> simp_all [clientLines, Event.isPin]

theorem pinTrace_append (a b : List Event) : pinTrace (a ++ b) = pinTrace a ++ pinTrace b := by
  simp [pinTrace]

theorem pinTrace_of_isPin (w : List Event) (h : ∀ e ∈ w, e.isPin = true) : pinTrace w = w := by
  rw [pinTrace, List.filter_eq_self]
  exact h

theorem oscillate_isPin (bit : Int) (w : List Event) (h : oscillate bit = some w) :
    ∀ e ∈ w, e.isPin = true := by
  have hp := oscillate_pinTrace bit w h
  rw [pinTrace, List.filter_eq_self] at hp
  exact hp

theorem printLoop_eq (f : List Int) :
    ∀ (n i : Nat), i + n ≤ f.length →
      printLoop f n i = some (((f.drop i).take n).map Event.serialPrintInt) := by
  intro n
  induction n with
  | zero => intro i _; rfl
  | succ n ih =>
    intro i h
    have hi : i < f.length := by omega
    rw [printLoop, List.getElem?_eq_getElem hi]
    simp only [ih (i + 1) (by omega), Option.map_some', List.drop_eq_getElem_cons hi,
      List.take_succ_cons, List.map_cons]

/-- The library calls of `sendIRCommand` on a 14-element frame: the debug
print of the fourteen values, then the waveform of each in turn. -/
theorem sendIRCommand_eq (f : List Int) (h : f.length = 14) :
    ∃ ws : List (List Event), ws.length = 14 ∧
      (∀ k, k < 14 → (f[k]?).bind oscillate = some (ws.getD k [])) ∧
      (∀ e ∈ ws.flatten, e.isPin = true) ∧
      sendIRCommand f =
        some (.serialPrint "IR command is: " :: f.map Event.serialPrintInt ++
          .serialPrintln :: ws.flatten) := by
  obtain ⟨ws, hlen, hws, hloop⟩ := oscillateLoop_total f 14 0 (by omega)
  refine ⟨ws, hlen, ?_, ?_, ?_⟩
  · intro k hk
    simpa using hws k hk
  · intro e he
    rw [List.mem_flatten] at he
    obtain ⟨w, hw, hew⟩ := he
    obtain ⟨k, hk, hkw⟩ := List.getElem_of_mem hw
    have hk14 : k < 14 := by omega
    have hfk : k < f.length := by omega
    have := hws k hk14
    simp only [Nat.zero_add, List.getElem?_eq_getElem hfk, Option.some_bind] at this
    rw [List.getD_eq_getElem _ _ hk, hkw] at this
    exact oscillate_isPin _ _ this e hew
  · rw [sendIRCommand, printLoop_eq f 14 0 (by omega), hloop]
    simp only [List.drop_zero, List.take_of_length_le (Nat.le_of_eq h)]

theorem clientLines_serialPrintInt (f : List Int) :
    clientLines (f.map Event.serialPrintInt) = [] := by
  induction f with
  | nil => rfl
  | cons a f ih => simp [clientLines, ih]

theorem pinTrace_serialPrintInt (f : List Int) :
    pinTrace (f.map Event.serialPrintInt) = [] := by
  induction f with
  | nil => rfl
  | cons a f ih => simp [pinTrace, Event.isPin]

/-! ## The dispatcher -/

theorem getSystemKey_unknown (s : List Char) :
    getSystemKey s = -1 ↔ cstr s ∉ systemNames := by
  rw [getSystemKey_eq]
  generalize cstr s = n
  by_cases hmem : n ∈ systemNames
  · simp only [systemNames, List.mem_cons, List.not_mem_nil, or_false] at hmem
    rcases hmem with h | h | h | h | h | h | h <;> (subst n; decide)
  · have hnot := hmem
    simp only [systemNames, List.mem_cons, List.not_mem_nil, or_false, not_or] at hnot
    obtain ⟨h1, h2, h3, h4, h5, h6, h7⟩ := hnot
    rw [if_neg h1, if_neg h2, if_neg h3, if_neg h4, if_neg h5, if_neg h6, if_neg h7]
    exact ⟨fun _ => hmem, fun _ => rfl⟩

theorem getCommandKey_unknown (s : List Char) :
    getCommandKey s = 0 ↔ cstr s ∉ commandNames := by
  rw [getCommandKey_eq]
  generalize cstr s = n
  by_cases hmem : n ∈ commandNames
  · simp only [commandNames, List.mem_cons, List.not_mem_nil, or_false] at hmem
    rcases hmem with h | h | h | h | h | h | h | h | h | h | h | h | h | h | h | h <;>
      (subst n; decide)
  · have hnot := hmem
    simp only [commandNames, List.mem_cons, List.not_mem_nil, or_false, not_or] at hnot
    obtain ⟨h1, h2, h3, h4, h5, h6, h7, h8, h9, h10, h11, h12, h13, h14, h15, h16⟩ := hnot
    rw [if_neg h1, if_neg h2, if_neg h3, if_neg h4, if_neg h5, if_neg h6, if_neg h7, if_neg h8,
      if_neg h9, if_neg h10, if_neg h11, if_neg h12, if_neg h13, if_neg h14, if_neg h15,
      if_neg h16]
    exact ⟨fun _ => hmem, fun _ => rfl⟩

/-- The end-of-request branch when a lookup fails. -/
theorem resolve_fail (g : Globals)
    (h : getSystemKey g.systemType = -1 ∨ getCommandKey g.command = 0) :
    resolve g = some (resetParser g, failResponse) := by
  unfold resolve
  simp only
  by_cases h1 : getSystemKey g.systemType ≠ -1
  · rw [if_pos h1]
    have h2 : ¬ getCommandKey g.command ≠ 0 := by
      rcases h with h | h
      · exact absurd h h1
      · exact fun hne => hne h
    rw [if_neg h2]
  · rw [if_neg h1]

/-- The end-of-request branch when both lookups succeed. -/
theorem resolve_pass (g : Globals) (h1 : getSystemKey g.systemType ≠ -1)
    (h2 : getCommandKey g.command ≠ 0) :
    resolve g =
      (processCommand { g with checkBit := if g.checkBit ≠ 0 then 0 else 1 }
        (getSystemKey g.systemType) (getCommandKey g.command)).map
        (fun r => (resetParser r.1, passResponse ++ r.2)) := by
  unfold resolve
  simp only
  rw [if_pos h1, if_pos h2]

/-- The infrared branch of `processCommand` on a 14-element frame array. -/
theorem processCommand_frame (g : Globals) (sk ck : Int) (h : g.irCommand.length = 14)
    (h500 : ck ≠ 500) (h501 : ck ≠ 501) :
    ∃ ws : List (List Event), ws.length = 14 ∧
      (∀ k, k < 14 →
        ((buildFrame g.irCommand g.checkBit sk ck)[k]?).bind oscillate = some (ws.getD k [])) ∧
      (∀ e ∈ ws.flatten, e.isPin = true) ∧
      processCommand g sk ck =
        some ({ g with irCommand := buildFrame g.irCommand g.checkBit sk ck },
          .serialPrint "IR command is: " ::
            (buildFrame g.irCommand g.checkBit sk ck).map Event.serialPrintInt ++
            .serialPrintln :: ws.flatten) := by
  obtain ⟨ws, hlen, hws, hpin, hsend⟩ :=
    sendIRCommand_eq (buildFrame g.irCommand g.checkBit sk ck) (by rw [buildFrame_length, h])
  refine ⟨ws, hlen, hws, hpin, ?_⟩
  unfold processCommand
  rw [if_neg h500, if_neg h501]
  simp only [hsend, Option.map_some']

theorem processCommand_clientLines (g : Globals) (sk ck : Int) (h : g.irCommand.length = 14)
    (r : Globals × List Event) (hr : processCommand g sk ck = some r) :
    clientLines r.2 = [] := by
  by_cases h500 : ck = 500
  · simp only [processCommand, if_pos h500, Option.some.injEq] at hr
    subst hr
    rfl
  · by_cases h501 : ck = 501
    · simp only [processCommand, if_neg h500, if_pos h501, Option.some.injEq] at hr
      subst hr
      rfl
    · obtain ⟨ws, _, _, hpin, hp⟩ := processCommand_frame g sk ck h h500 h501
      rw [hp, Option.some.injEq] at hr
      subst hr
      show clientLines (Event.serialPrint "IR command is: " :: (_ ++ Event.serialPrintln :: _))
        = []
      simp only [clientLines, clientLines_append, clientLines_serialPrintInt,
        clientLines_of_isPin _ hpin, List.append_nil]

/-- Every call of `processCommand` drives the pin at least once. -/
theorem processCommand_pinTrace_ne_nil (g : Globals) (sk ck : Int)
    (h : g.irCommand.length = 14) (r : Globals × List Event)
    (hr : processCommand g sk ck = some r) : pinTrace r.2 ≠ [] := by
  by_cases h500 : ck = 500
  · simp only [processCommand, if_pos h500, Option.some.injEq] at hr
    subst hr
    exact List.cons_ne_nil _ _
  · by_cases h501 : ck = 501
    · simp only [processCommand, if_neg h500, if_pos h501, Option.some.injEq] at hr
      subst hr
      exact List.cons_ne_nil _ _
    · obtain ⟨ws, hlen, hws, hpin, hp⟩ := processCommand_frame g sk ck h h500 h501
      rw [hp, Option.some.injEq] at hr
      subst hr
      have h0 := hws 0 (by omega)
      have hf0 : 0 < (buildFrame g.irCommand g.checkBit sk ck).length := by
        rw [buildFrame_length, h]; omega
      rw [List.getElem?_eq_getElem hf0, Option.some_bind, oscillate_eq, Option.some.injEq,
        List.getD_eq_getElem _ _ (by omega : 0 < ws.length)] at h0
      have hne : ws.flatten ≠ [] := by
        intro hnil
        rw [List.flatten_eq_nil_iff] at hnil
        have h1 := hnil ws[0] (List.getElem_mem _)
        rw [h1] at h0
        split_ifs at h0 <;> simp at h0
      intro hnil
      apply hne
      have hsub : pinTrace ws.flatten = [] := by
        have := congrArg (fun l => l) hnil
        simp only [pinTrace, List.filter_cons, List.filter_append, Event.isPin,
          List.append_eq_nil, Bool.false_eq_true, if_false] at this
        exact this.2
      rwa [pinTrace_of_isPin _ hpin] at hsub

/-- C4. At every end-of-request resolution exactly one response is written to
the client, the lines `HTTP/1.1 200 OK`, `Content-Type:text/html`, an empty
line and one body marker; the marker is PASS if and only if `getSystemKey` of
the device buffer is not -1 and `getCommandKey` of the command buffer is not
0, and FAIL in every other case. -/
theorem resolve_response (g : Globals) (h : g.irCommand.length = 14) :
    ∃ r, resolve g = some r ∧
      clientLines r.2 =
        ["HTTP/1.1 200 OK", "Content-Type:text/html", "",
          if getSystemKey g.systemType ≠ -1 ∧ getCommandKey g.command ≠ 0
          then "<H4>PASS</H4>" else "<H4>FAIL</H4>"] := by
  by_cases h1 : getSystemKey g.systemType ≠ -1
  · by_cases h2 : getCommandKey g.command ≠ 0
    · obtain ⟨r, hr⟩ := processCommand_total
        { g with checkBit := if g.checkBit ≠ 0 then 0 else 1 }
        (getSystemKey g.systemType) (getCommandKey g.command) h
      refine ⟨(resetParser r.1, passResponse ++ r.2), ?_, ?_⟩
      · rw [resolve_pass g h1 h2, hr, Option.map_some']
      · have hcl := processCommand_clientLines
          { g with checkBit := if g.checkBit ≠ 0 then 0 else 1 }
          (getSystemKey g.systemType) (getCommandKey g.command) h r hr
        rw [if_pos ⟨h1, h2⟩, clientLines_append, hcl]
        rfl
    · refine ⟨(resetParser g, failResponse), resolve_fail g (Or.inr (not_not.mp h2)), ?_⟩
      rw [if_neg (fun hc => h2 hc.2)]
      rfl
  · refine ⟨(resetParser g, failResponse), resolve_fail g (Or.inl (not_not.mp h1)), ?_⟩
    rw [if_neg (fun hc => h1 hc.1)]
    rfl

/-- Witness for C4: the start-up globals, whose buffers hold the empty string. -/
theorem resolve_response_witness :
    ∃ r, resolve Globals.init = some r ∧
      clientLines r.2 = ["HTTP/1.1 200 OK", "Content-Type:text/html", "", "<H4>FAIL</H4>"] :=
  resolve_response Globals.init (by decide)


/-- C5. Whenever an end-of-request resolution fails (the device buffer holds a
name outside the device table, or the command buffer a name outside the
command table), the branch writes the FAIL response and nothing else: the
toggle bit `checkBit` and the frame array `irCommand` keep their values, and
the trace has no pin write, no delay and no serial output; `processCommand`
was not called, since every call of it drives the pin at least once. -/
theorem resolve_unknown (g : Globals)
    (h : cstr g.systemType ∉ systemNames ∨ cstr g.command ∉ commandNames) :
    ∃ g1 out, resolve g = some (g1, out) ∧
      g1.checkBit = g.checkBit ∧ g1.irCommand = g.irCommand ∧
      out = failResponse ∧ pinTrace out = [] ∧ serialTrace out = [] ∧
      clientLines out = ["HTTP/1.1 200 OK", "Content-Type:text/html", "", "<H4>FAIL</H4>"] ∧
      ∀ (g0 : Globals) (sk ck : Int) (r : Globals × List Event),
        g0.irCommand.length = 14 → processCommand g0 sk ck = some r → pinTrace r.2 ≠ [] := by
  have hkeys : getSystemKey g.systemType = -1 ∨ getCommandKey g.command = 0 := by
    rcases h with h | h
    · exact Or.inl ((getSystemKey_unknown _).mpr h)
    · exact Or.inr ((getCommandKey_unknown _).mpr h)
  exact ⟨resetParser g, failResponse, resolve_fail g hkeys, rfl, rfl, rfl, rfl, rfl, rfl,
    fun g0 sk ck r h0 hr => processCommand_pinTrace_ne_nil g0 sk ck h0 r hr⟩

/-- Witness for C5: the request `GET /bogus/bogus HTTP/1.1` from the start-up
globals ends in FAIL with `checkBit` still 0. -/
theorem resolve_unknown_witness :
    ∃ g1, loop Globals.init (request "bogus".toList "bogus".toList) =
        some (.answered g1 failResponse []) ∧
      g1.checkBit = 0 ∧ g1.irCommand = Globals.init.irCommand := by
  have hloop := loop_request_eq (List.replicate 20 NUL) (List.replicate 20 NUL) 0
    (List.replicate 14 0) "bogus".toList "bogus".toList rfl rfl (by decide) (by decide)
    (by decide) (by decide)
  obtain ⟨g1, out, hres, hcb, hirc, hout, _⟩ := resolve_unknown
    ⟨"bogus".toList ++ NUL :: (List.replicate 20 NUL).drop ("bogus".toList.length + 1),
      "bogus".toList ++ NUL :: (List.replicate 20 NUL).drop ("bogus".toList.length + 1),
      true, true, true, true, "bogus".toList.length, "bogus".toList.length, 0,
      List.replicate 14 0⟩ (Or.inl (by decide))
  rw [hres, Option.map_some'] at hloop
  subst hout
  exact ⟨g1, hloop, hcb, hirc⟩


/-! ## The frame builder -/

theorem length_eq_fourteen {f : List Int} (h : f.length = 14) :
    ∃ a0 a1 a2 a3 a4 a5 a6 a7 a8 a9 a10 a11 a12 a13,
      f = [a0, a1, a2, a3, a4, a5, a6, a7, a8, a9, a10, a11, a12, a13] := by
  match f, h with
  | [a0, a1, a2, a3, a4, a5, a6, a7, a8, a9, a10, a11, a12, a13], _ =>
    exact ⟨a0, a1, a2, a3, a4, a5, a6, a7, a8, a9, a10, a11, a12, a13, rfl⟩

/-- The registered device keys. -/
theorem getSystemKey_mem (s : List Char) (h : cstr s ∈ systemNames) :
    getSystemKey s ∈ [0, 1, 5, 6, 12, 18, 20] := by
  rw [getSystemKey_eq]
  generalize cstr s = n at h
  simp only [systemNames, List.mem_cons, List.not_mem_nil, or_false] at h
  rcases h with h | h | h | h | h | h | h <;> (subst n; decide)

/-- The registered command keys of the infrared commands. -/
theorem getCommandKey_mem (s : List Char) (h : cstr s ∈ commandNames)
    (hon : cstr s ≠ "ledon".toList) (hoff : cstr s ≠ "ledoff".toList) :
    getCommandKey s ∈ [12, 13, 16, 17, 18, 19, 48, 50, 52, 53, 54, 55, 82, 83] := by
  rw [getCommandKey_eq]
  generalize cstr s = n at h hon hoff
  simp only [commandNames, List.mem_cons, List.not_mem_nil, or_false] at h
  rcases h with h | h | h | h | h | h | h | h | h | h | h | h | h | h | h | h
  all_goals first
    | exact absurd h hon
    | exact absurd h hoff
    | (subst n; decide)

/-- Assignment to one element of a 14-element array. -/
theorem set_fourteen (a0 a1 a2 a3 a4 a5 a6 a7 a8 a9 a10 a11 a12 a13 v : Int) :
    [a0, a1, a2, a3, a4, a5, a6, a7, a8, a9, a10, a11, a12, a13].set 0 v =
      [v, a1, a2, a3, a4, a5, a6, a7, a8, a9, a10, a11, a12, a13] ∧
    [a0, a1, a2, a3, a4, a5, a6, a7, a8, a9, a10, a11, a12, a13].set 1 v =
      [a0, v, a2, a3, a4, a5, a6, a7, a8, a9, a10, a11, a12, a13] ∧
    [a0, a1, a2, a3, a4, a5, a6, a7, a8, a9, a10, a11, a12, a13].set 2 v =
      [a0, a1, v, a3, a4, a5, a6, a7, a8, a9, a10, a11, a12, a13] ∧
    [a0, a1, a2, a3, a4, a5, a6, a7, a8, a9, a10, a11, a12, a13].set 3 v =
      [a0, a1, a2, v, a4, a5, a6, a7, a8, a9, a10, a11, a12, a13] ∧
    [a0, a1, a2, a3, a4, a5, a6, a7, a8, a9, a10, a11, a12, a13].set 4 v =
      [a0, a1, a2, a3, v, a5, a6, a7, a8, a9, a10, a11, a12, a13] ∧
    [a0, a1, a2, a3, a4, a5, a6, a7, a8, a9, a10, a11, a12, a13].set 5 v =
      [a0, a1, a2, a3, a4, v, a6, a7, a8, a9, a10, a11, a12, a13] ∧
    [a0, a1, a2, a3, a4, a5, a6, a7, a8, a9, a10, a11, a12, a13].set 6 v =
      [a0, a1, a2, a3, a4, a5, v, a7, a8, a9, a10, a11, a12, a13] ∧
    [a0, a1, a2, a3, a4, a5, a6, a7, a8, a9, a10, a11, a12, a13].set 7 v =
      [a0, a1, a2, a3, a4, a5, a6, v, a8, a9, a10, a11, a12, a13] ∧
    [a0, a1, a2, a3, a4, a5, a6, a7, a8, a9, a10, a11, a12, a13].set 8 v =
      [a0, a1, a2, a3, a4, a5, a6, a7, v, a9, a10, a11, a12, a13] ∧
    [a0, a1, a2, a3, a4, a5, a6, a7, a8, a9, a10, a11, a12, a13].set 9 v =
      [a0, a1, a2, a3, a4, a5, a6, a7, a8, v, a10, a11, a12, a13] ∧
    [a0, a1, a2, a3, a4, a5, a6, a7, a8, a9, a10, a11, a12, a13].set 10 v =
      [a0, a1, a2, a3, a4, a5, a6, a7, a8, a9, v, a11, a12, a13] ∧
    [a0, a1, a2, a3, a4, a5, a6, a7, a8, a9, a10, a11, a12, a13].set 11 v =
      [a0, a1, a2, a3, a4, a5, a6, a7, a8, a9, a10, v, a12, a13] ∧
    [a0, a1, a2, a3, a4, a5, a6, a7, a8, a9, a10, a11, a12, a13].set 12 v =
      [a0, a1, a2, a3, a4, a5, a6, a7, a8, a9, a10, a11, v, a13] ∧
    [a0, a1, a2, a3, a4, a5, a6, a7, a8, a9, a10, a11, a12, a13].set 13 v =
      [a0, a1, a2, a3, a4, a5, a6, a7, a8, a9, a10, a11, a12, v] :=
  ⟨rfl, rfl, rfl, rfl, rfl, rfl, rfl, rfl, rfl, rfl, rfl, rfl, rfl, rfl⟩

theorem set_fourteen_0 (a0 a1 a2 a3 a4 a5 a6 a7 a8 a9 a10 a11 a12 a13 v : Int) :
    [a0, a1, a2, a3, a4, a5, a6, a7, a8, a9, a10, a11, a12, a13].set 0 v =
      [v, a1, a2, a3, a4, a5, a6, a7, a8, a9, a10, a11, a12, a13] :=
  (set_fourteen a0 a1 a2 a3 a4 a5 a6 a7 a8 a9 a10 a11 a12 a13 v).1

theorem set_fourteen_1 (a0 a1 a2 a3 a4 a5 a6 a7 a8 a9 a10 a11 a12 a13 v : Int) :
    [a0, a1, a2, a3, a4, a5, a6, a7, a8, a9, a10, a11, a12, a13].set 1 v =
      [a0, v, a2, a3, a4, a5, a6, a7, a8, a9, a10, a11, a12, a13] :=
  (set_fourteen a0 a1 a2 a3 a4 a5 a6 a7 a8 a9 a10 a11 a12 a13 v).2.1

theorem set_fourteen_2 (a0 a1 a2 a3 a4 a5 a6 a7 a8 a9 a10 a11 a12 a13 v : Int) :
    [a0, a1, a2, a3, a4, a5, a6, a7, a8, a9, a10, a11, a12, a13].set 2 v =
      [a0, a1, v, a3, a4, a5, a6, a7, a8, a9, a10, a11, a12, a13] :=
  (set_fourteen a0 a1 a2 a3 a4 a5 a6 a7 a8 a9 a10 a11 a12 a13 v).2.2.1

theorem set_fourteen_3 (a0 a1 a2 a3 a4 a5 a6 a7 a8 a9 a10 a11 a12 a13 v : Int) :
    [a0, a1, a2, a3, a4, a5, a6, a7, a8, a9, a10, a11, a12, a13].set 3 v =
      [a0, a1, a2, v, a4, a5, a6, a7, a8, a9, a10, a11, a12, a13] :=
  (set_fourteen a0 a1 a2 a3 a4 a5 a6 a7 a8 a9 a10 a11 a12 a13 v).2.2.2.1

theorem set_fourteen_4 (a0 a1 a2 a3 a4 a5 a6 a7 a8 a9 a10 a11 a12 a13 v : Int) :
    [a0, a1, a2, a3, a4, a5, a6, a7, a8, a9, a10, a11, a12, a13].set 4 v =
      [a0, a1, a2, a3, v, a5, a6, a7, a8, a9, a10, a11, a12, a13] :=
  (set_fourteen a0 a1 a2 a3 a4 a5 a6 a7 a8 a9 a10 a11 a12 a13 v).2.2.2.2.1

theorem set_fourteen_5 (a0 a1 a2 a3 a4 a5 a6 a7 a8 a9 a10 a11 a12 a13 v : Int) :
    [a0, a1, a2, a3, a4, a5, a6, a7, a8, a9, a10, a11, a12, a13].set 5 v =
      [a0, a1, a2, a3, a4, v, a6, a7, a8, a9, a10, a11, a12, a13] :=
  (set_fourteen a0 a1 a2 a3 a4 a5 a6 a7 a8 a9 a10 a11 a12 a13 v).2.2.2.2.2.1

theorem set_fourteen_6 (a0 a1 a2 a3 a4 a5 a6 a7 a8 a9 a10 a11 a12 a13 v : Int) :
    [a0, a1, a2, a3, a4, a5, a6, a7, a8, a9, a10, a11, a12, a13].set 6 v =
      [a0, a1, a2, a3, a4, a5, v, a7, a8, a9, a10, a11, a12, a13] :=
  (set_fourteen a0 a1 a2 a3 a4 a5 a6 a7 a8 a9 a10 a11 a12 a13 v).2.2.2.2.2.2.1

theorem set_fourteen_7 (a0 a1 a2 a3 a4 a5 a6 a7 a8 a9 a10 a11 a12 a13 v : Int) :
    [a0, a1, a2, a3, a4, a5, a6, a7, a8, a9, a10, a11, a12, a13].set 7 v =
      [a0, a1, a2, a3, a4, a5, a6, v, a8, a9, a10, a11, a12, a13] :=
  (set_fourteen a0 a1 a2 a3 a4 a5 a6 a7 a8 a9 a10 a11 a12 a13 v).2.2.2.2.2.2.2.1

theorem set_fourteen_8 (a0 a1 a2 a3 a4 a5 a6 a7 a8 a9 a10 a11 a12 a13 v : Int) :
    [a0, a1, a2, a3, a4, a5, a6, a7, a8, a9, a10, a11, a12, a13].set 8 v =
      [a0, a1, a2, a3, a4, a5, a6, a7, v, a9, a10, a11, a12, a13] :=
  (set_fourteen a0 a1 a2 a3 a4 a5 a6 a7 a8 a9 a10 a11 a12 a13 v).2.2.2.2.2.2.2.2.1

theorem set_fourteen_9 (a0 a1 a2 a3 a4 a5 a6 a7 a8 a9 a10 a11 a12 a13 v : Int) :
    [a0, a1, a2, a3, a4, a5, a6, a7, a8, a9, a10, a11, a12, a13].set 9 v =
      [a0, a1, a2, a3, a4, a5, a6, a7, a8, v, a10, a11, a12, a13] :=
  (set_fourteen a0 a1 a2 a3 a4 a5 a6 a7 a8 a9 a10 a11 a12 a13 v).2.2.2.2.2.2.2.2.2.1

theorem set_fourteen_10 (a0 a1 a2 a3 a4 a5 a6 a7 a8 a9 a10 a11 a12 a13 v : Int) :
    [a0, a1, a2, a3, a4, a5, a6, a7, a8, a9, a10, a11, a12, a13].set 10 v =
      [a0, a1, a2, a3, a4, a5, a6, a7, a8, a9, v, a11, a12, a13] :=
  (set_fourteen a0 a1 a2 a3 a4 a5 a6 a7 a8 a9 a10 a11 a12 a13 v).2.2.2.2.2.2.2.2.2.2.1

theorem set_fourteen_11 (a0 a1 a2 a3 a4 a5 a6 a7 a8 a9 a10 a11 a12 a13 v : Int) :
    [a0, a1, a2, a3, a4, a5, a6, a7, a8, a9, a10, a11, a12, a13].set 11 v =
      [a0, a1, a2, a3, a4, a5, a6, a7, a8, a9, a10, v, a12, a13] :=
  (set_fourteen a0 a1 a2 a3 a4 a5 a6 a7 a8 a9 a10 a11 a12 a13 v).2.2.2.2.2.2.2.2.2.2.2.1

theorem set_fourteen_12 (a0 a1 a2 a3 a4 a5 a6 a7 a8 a9 a10 a11 a12 a13 v : Int) :
    [a0, a1, a2, a3, a4, a5, a6, a7, a8, a9, a10, a11, a12, a13].set 12 v =
      [a0, a1, a2, a3, a4, a5, a6, a7, a8, a9, a10, a11, v, a13] :=
  (set_fourteen a0 a1 a2 a3 a4 a5 a6 a7 a8 a9 a10 a11 a12 a13 v).2.2.2.2.2.2.2.2.2.2.2.2.1

theorem set_fourteen_13 (a0 a1 a2 a3 a4 a5 a6 a7 a8 a9 a10 a11 a12 a13 v : Int) :
    [a0, a1, a2, a3, a4, a5, a6, a7, a8, a9, a10, a11, a12, a13].set 13 v =
      [a0, a1, a2, a3, a4, a5, a6, a7, a8, a9, a10, a11, a12, v] :=
  (set_fourteen a0 a1 a2 a3 a4 a5 a6 a7 a8 a9 a10 a11 a12 a13 v).2.2.2.2.2.2.2.2.2.2.2.2.2

theorem setAddress_fourteen (a0 a1 a2 a3 a4 a5 a6 a7 a8 a9 a10 a11 a12 a13 b3 b4 b5 b6 b7 : Int) :
    setAddress [a0, a1, a2, a3, a4, a5, a6, a7, a8, a9, a10, a11, a12, a13] b3 b4 b5 b6 b7 =
      [a0, a1, a2, b3, b4, b5, b6, b7, a8, a9, a10, a11, a12, a13] := by
  simp only [setAddress, set_fourteen_3, set_fourteen_4, set_fourteen_5, set_fourteen_6,
    set_fourteen_7]

theorem setCommand_fourteen (a0 a1 a2 a3 a4 a5 a6 a7 a8 a9 a10 a11 a12 a13 b8 b9 b10 b11 b12 b13 : Int) :
    setCommand [a0, a1, a2, a3, a4, a5, a6, a7, a8, a9, a10, a11, a12, a13] b8 b9 b10 b11 b12 b13 =
      [a0, a1, a2, a3, a4, a5, a6, a7, b8, b9, b10, b11, b12, b13] := by
  simp only [setCommand, set_fourteen_8, set_fourteen_9, set_fourteen_10, set_fourteen_11,
    set_fourteen_12, set_fourteen_13]

/-- What the system switch does to a 14-element array: either it writes five
fixed values at indices 3 to 7, or (no case matches) it writes nothing. -/
theorem systemSwitch_shape (sk : Int) :
    (∃ b3 b4 b5 b6 b7 : Int, ∀ a0 a1 a2 a3 a4 a5 a6 a7 a8 a9 a10 a11 a12 a13 : Int,
      systemSwitch sk [a0, a1, a2, a3, a4, a5, a6, a7, a8, a9, a10, a11, a12, a13] =
        [a0, a1, a2, b3, b4, b5, b6, b7, a8, a9, a10, a11, a12, a13]) ∨
    (∀ f, systemSwitch sk f = f) := by
  by_cases h0 : sk = 0
  · exact Or.inl ⟨0, 0, 0, 0, 0, fun _ _ _ _ _ _ _ _ _ _ _ _ _ _ => by
      simp only [systemSwitch, if_pos h0, setAddress_fourteen]⟩
  by_cases h1 : sk = 1
  · exact Or.inl ⟨0, 0, 0, 0, 1, fun _ _ _ _ _ _ _ _ _ _ _ _ _ _ => by
      simp only [systemSwitch, if_neg h0, if_pos h1, setAddress_fourteen]⟩
  by_cases h2 : sk = 5
  · exact Or.inl ⟨0, 0, 1, 0, 1, fun _ _ _ _ _ _ _ _ _ _ _ _ _ _ => by
      simp only [systemSwitch, if_neg h0, if_neg h1, if_pos h2, setAddress_fourteen]⟩
  by_cases h3 : sk = 6
  · exact Or.inl ⟨0, 0, 1, 1, 0, fun _ _ _ _ _ _ _ _ _ _ _ _ _ _ => by
      simp only [systemSwitch, if_neg h0, if_neg h1, if_neg h2, if_pos h3, setAddress_fourteen]⟩
  by_cases h4 : sk = 12
  · exact Or.inl ⟨0, 1, 1, 0, 0, fun _ _ _ _ _ _ _ _ _ _ _ _ _ _ => by
      simp only [systemSwitch, if_neg h0, if_neg h1, if_neg h2, if_neg h3, if_pos h4, setAddress_fourteen]⟩
  by_cases h5 : sk = 18
  · exact Or.inl ⟨1, 0, 0, 1, 0, fun _ _ _ _ _ _ _ _ _ _ _ _ _ _ => by
      simp only [systemSwitch, if_neg h0, if_neg h1, if_neg h2, if_neg h3, if_neg h4, if_pos h5, setAddress_fourteen]⟩
  by_cases h6 : sk = 20
  · exact Or.inl ⟨1, 0, 1, 0, 0, fun _ _ _ _ _ _ _ _ _ _ _ _ _ _ => by
      simp only [systemSwitch, if_neg h0, if_neg h1, if_neg h2, if_neg h3, if_neg h4, if_neg h5, if_pos h6, setAddress_fourteen]⟩
  exact Or.inr (fun f => by simp only [systemSwitch, if_neg h0, if_neg h1, if_neg h2, if_neg h3, if_neg h4, if_neg h5, if_neg h6])

/-- What the command switch does to a 14-element array: either it leaves six
fixed values at indices 8 to 13, or (no case matches) it writes nothing. -/
theorem commandSwitch_shape (ck : Int) :
    (∃ b8 b9 b10 b11 b12 b13 : Int, ∀ a0 a1 a2 a3 a4 a5 a6 a7 a8 a9 a10 a11 a12 a13 : Int,
      commandSwitch ck [a0, a1, a2, a3, a4, a5, a6, a7, a8, a9, a10, a11, a12, a13] =
        [a0, a1, a2, a3, a4, a5, a6, a7, b8, b9, b10, b11, b12, b13]) ∨
    (∀ f, commandSwitch ck f = f) := by
  by_cases h0 : ck = 12
  · exact Or.inl ⟨0, 0, 1, 1, 0, 0, fun _ _ _ _ _ _ _ _ _ _ _ _ _ _ => by
      simp only [commandSwitch, if_pos h0, case48, case50, case52, case53, case54, case55,
        setCommand_fourteen]⟩
  by_cases h1 : ck = 13
  · exact Or.inl ⟨0, 0, 1, 1, 0, 1, fun _ _ _ _ _ _ _ _ _ _ _ _ _ _ => by
      simp only [commandSwitch, if_neg h0, if_pos h1, case48, case50, case52, case53, case54, case55,
        setCommand_fourteen]⟩
  by_cases h2 : ck = 16
  · exact Or.inl ⟨0, 1, 0, 0, 0, 0, fun _ _ _ _ _ _ _ _ _ _ _ _ _ _ => by
      simp only [commandSwitch, if_neg h0, if_neg h1, if_pos h2, case48, case50, case52, case53, case54, case55,
        setCommand_fourteen]⟩
  by_cases h3 : ck = 17
  · exact Or.inl ⟨0, 1, 0, 0, 0, 1, fun _ _ _ _ _ _ _ _ _ _ _ _ _ _ => by
      simp only [commandSwitch, if_neg h0, if_neg h1, if_neg h2, if_pos h3, case48, case50, case52, case53, case54, case55,
        setCommand_fourteen]⟩
  by_cases h4 : ck = 18
  · exact Or.inl ⟨0, 1, 0, 0, 1, 0, fun _ _ _ _ _ _ _ _ _ _ _ _ _ _ => by
      simp only [commandSwitch, if_neg h0, if_neg h1, if_neg h2, if_neg h3, if_pos h4, case48, case50, case52, case53, case54, case55,
        setCommand_fourteen]⟩
  by_cases h5 : ck = 19
  · exact Or.inl ⟨0, 1, 0, 0, 1, 1, fun _ _ _ _ _ _ _ _ _ _ _ _ _ _ => by
      simp only [commandSwitch, if_neg h0, if_neg h1, if_neg h2, if_neg h3, if_neg h4, if_pos h5, case48, case50, case52, case53, case54, case55,
        setCommand_fourteen]⟩
  by_cases h6 : ck = 48
  · exact Or.inl ⟨1, 1, 0, 1, 1, 1, fun _ _ _ _ _ _ _ _ _ _ _ _ _ _ => by
      simp only [commandSwitch, if_neg h0, if_neg h1, if_neg h2, if_neg h3, if_neg h4, if_neg h5, if_pos h6, case48, case50, case52, case53, case54, case55,
        setCommand_fourteen]⟩
  by_cases h7 : ck = 50
  · exact Or.inl ⟨1, 1, 0, 1, 1, 1, fun _ _ _ _ _ _ _ _ _ _ _ _ _ _ => by
      simp only [commandSwitch, if_neg h0, if_neg h1, if_neg h2, if_neg h3, if_neg h4, if_neg h5, if_neg h6, if_pos h7, case48, case50, case52, case53, case54, case55,
        setCommand_fourteen]⟩
  by_cases h8 : ck = 52
  · exact Or.inl ⟨1, 1, 0, 1, 1, 1, fun _ _ _ _ _ _ _ _ _ _ _ _ _ _ => by
      simp only [commandSwitch, if_neg h0, if_neg h1, if_neg h2, if_neg h3, if_neg h4, if_neg h5, if_neg h6, if_neg h7, if_pos h8, case48, case50, case52, case53, case54, case55,
        setCommand_fourteen]⟩
  by_cases h9 : ck = 53
  · exact Or.inl ⟨1, 1, 0, 1, 1, 1, fun _ _ _ _ _ _ _ _ _ _ _ _ _ _ => by
      simp only [commandSwitch, if_neg h0, if_neg h1, if_neg h2, if_neg h3, if_neg h4, if_neg h5, if_neg h6, if_neg h7, if_neg h8, if_pos h9, case48, case50, case52, case53, case54, case55,
        setCommand_fourteen]⟩
  by_cases h10 : ck = 54
  · exact Or.inl ⟨1, 1, 0, 1, 1, 1, fun _ _ _ _ _ _ _ _ _ _ _ _ _ _ => by
      simp only [commandSwitch, if_neg h0, if_neg h1, if_neg h2, if_neg h3, if_neg h4, if_neg h5, if_neg h6, if_neg h7, if_neg h8, if_neg h9, if_pos h10, case48, case50, case52, case53, case54, case55,
        setCommand_fourteen]⟩
  by_cases h11 : ck = 55
  · exact Or.inl ⟨1, 1, 0, 1, 1, 1, fun _ _ _ _ _ _ _ _ _ _ _ _ _ _ => by
      simp only [commandSwitch, if_neg h0, if_neg h1, if_neg h2, if_neg h3, if_neg h4, if_neg h5, if_neg h6, if_neg h7, if_neg h8, if_neg h9, if_neg h10, if_pos h11, case48, case50, case52, case53, case54, case55,
        setCommand_fourteen]⟩
  exact Or.inr (fun f => by simp only [commandSwitch, if_neg h0, if_neg h1, if_neg h2, if_neg h3, if_neg h4, if_neg h5, if_neg h6, if_neg h7, if_neg h8, if_neg h9, if_neg h10, if_neg h11])

/-- Building the same frame again only rewrites the toggle position. -/
theorem buildFrame_twice (f : List Int) (hf : f.length = 14) (t1 t2 sk ck : Int) :
    buildFrame (buildFrame f t1 sk ck) t2 sk ck = (buildFrame f t1 sk ck).set 2 t2 := by
  obtain ⟨a0, a1, a2, a3, a4, a5, a6, a7, a8, a9, a10, a11, a12, a13, rfl⟩ :=
    length_eq_fourteen hf
  simp only [buildFrame, set_fourteen_0, set_fourteen_1, set_fourteen_2]
  rcases systemSwitch_shape sk with ⟨b3, b4, b5, b6, b7, hs⟩ | hs <;>
    rcases commandSwitch_shape ck with ⟨b8, b9, b10, b11, b12, b13, hc⟩ | hc <;>
      simp only [hs, hc, set_fourteen_0, set_fourteen_1, set_fourteen_2]

/-- The first three positions of a built frame: two start bits and the toggle bit. -/
theorem buildFrame_start (f : List Int) (hf : f.length = 14) (t sk ck : Int) :
    (buildFrame f t sk ck)[0]? = some 1 ∧ (buildFrame f t sk ck)[1]? = some 1 ∧
      (buildFrame f t sk ck)[2]? = some t := by
  obtain ⟨a0, a1, a2, a3, a4, a5, a6, a7, a8, a9, a10, a11, a12, a13, rfl⟩ :=
    length_eq_fourteen hf
  simp only [buildFrame, set_fourteen_0, set_fourteen_1, set_fourteen_2]
  rcases systemSwitch_shape sk with ⟨b3, b4, b5, b6, b7, hs⟩ | hs <;>
    rcases commandSwitch_shape ck with ⟨b8, b9, b10, b11, b12, b13, hc⟩ | hc <;>
      simp only [hs, hc] <;> exact ⟨rfl, rfl, rfl⟩


/-! ## Successful dispatches -/

theorem systemNames_ok : ∀ d ∈ systemNames, '/' ∉ d ∧ NUL ∉ d ∧ d.length ≤ 19 := by
  decide

theorem commandNames_ok : ∀ c ∈ commandNames, ' ' ∉ c ∧ NUL ∉ c ∧ c.length ≤ 19 := by
  decide

theorem getSystemKey_congr (a b : List Char) (h : cstr a = cstr b) :
    getSystemKey a = getSystemKey b := by
  rw [getSystemKey_eq, getSystemKey_eq, h]

theorem getCommandKey_congr (a b : List Char) (h : cstr a = cstr b) :
    getCommandKey a = getCommandKey b := by
  rw [getCommandKey_eq, getCommandKey_eq, h]

theorem frame_key_ne (k : Int)
    (h : k ∈ [12, 13, 16, 17, 18, 19, 48, 50, 52, 53, 54, 55, 82, 83]) :
    k ≠ 0 ∧ k ≠ 500 ∧ k ≠ 501 := by
  simp only [List.mem_cons, List.not_mem_nil, or_false] at h
  omega

/-- The end-of-request branch for an infrared command: the toggle bit is
flipped, the frame is built over the old array contents and handed to
`sendIRCommand`, whose library calls follow the PASS response. -/
theorem resolve_frame (g : Globals) (h : g.irCommand.length = 14)
    (hs : getSystemKey g.systemType ≠ -1) (h0 : getCommandKey g.command ≠ 0)
    (h500 : getCommandKey g.command ≠ 500) (h501 : getCommandKey g.command ≠ 501) :
    ∃ tr,
      sendIRCommand (buildFrame g.irCommand (if g.checkBit ≠ 0 then 0 else 1)
        (getSystemKey g.systemType) (getCommandKey g.command)) = some tr ∧
      resolve g =
        some (resetParser { g with
            checkBit := if g.checkBit ≠ 0 then 0 else 1,
            irCommand := buildFrame g.irCommand (if g.checkBit ≠ 0 then 0 else 1)
              (getSystemKey g.systemType) (getCommandKey g.command) },
          passResponse ++ tr) := by
  obtain ⟨tr, htr⟩ := sendIRCommand_total
    (buildFrame g.irCommand (if g.checkBit ≠ 0 then 0 else 1)
      (getSystemKey g.systemType) (getCommandKey g.command)) (by rw [buildFrame_length, h])
  refine ⟨tr, htr, ?_⟩
  rw [resolve_pass g hs h0]
  simp only [processCommand, if_neg h500, if_neg h501, htr, Option.map_some']

/-- A request for a registered device and a registered infrared command, read
from the parser's initial state. -/
theorem loop_request_frame (sys cmd : List Char) (cb : Int) (irc : List Int)
    (d c : List Char) (hs : sys.length = 20) (hm : cmd.length = 20) (hirc : irc.length = 14)
    (hd : d ∈ systemNames) (hc : c ∈ commandNames)
    (hon : c ≠ "ledon".toList) (hoff : c ≠ "ledoff".toList) :
    ∃ tr,
      sendIRCommand (buildFrame irc (if cb ≠ 0 then 0 else 1)
        (getSystemKey d) (getCommandKey c)) = some tr ∧
      loop ⟨sys, cmd, false, false, false, false, 0, 0, cb, irc⟩ (request d c) =
        some (.answered
          ⟨d ++ NUL :: sys.drop (d.length + 1), c ++ NUL :: cmd.drop (c.length + 1),
            false, false, false, false, 0, 0, if cb ≠ 0 then 0 else 1,
            buildFrame irc (if cb ≠ 0 then 0 else 1) (getSystemKey d) (getCommandKey c)⟩
          (passResponse ++ tr) []) := by
  obtain ⟨hd1, hd2, hd3⟩ := systemNames_ok d hd
  obtain ⟨hc1, hc2, hc3⟩ := commandNames_ok c hc
  have hcd : cstr (d ++ NUL :: sys.drop (d.length + 1)) = cstr d := by
    rw [cstr_append_nul d _ hd2, cstr_of_no_nul d hd2]
  have hcc : cstr (c ++ NUL :: cmd.drop (c.length + 1)) = cstr c := by
    rw [cstr_append_nul c _ hc2, cstr_of_no_nul c hc2]
  have hkd := getSystemKey_congr _ _ hcd
  have hkc := getCommandKey_congr _ _ hcc
  have hsk : getSystemKey d ≠ -1 := by
    rw [Ne, getSystemKey_unknown, cstr_of_no_nul d hd2]
    exact fun hn => hn hd
  have hck := frame_key_ne _ (getCommandKey_mem c (by rw [cstr_of_no_nul c hc2]; exact hc)
    (by rw [cstr_of_no_nul c hc2]; exact hon) (by rw [cstr_of_no_nul c hc2]; exact hoff))
  obtain ⟨tr, htr, hres⟩ := resolve_frame
    ⟨d ++ NUL :: sys.drop (d.length + 1), c ++ NUL :: cmd.drop (c.length + 1),
      true, true, true, true, d.length, c.length, cb, irc⟩ hirc
    (by rw [hkd]; exact hsk) (by rw [hkc]; exact hck.1) (by rw [hkc]; exact hck.2.1)
    (by rw [hkc]; exact hck.2.2)
  simp only [hkd, hkc] at htr hres
  refine ⟨tr, htr, ?_⟩
  rw [loop_request_eq sys cmd cb irc d c hs hm hd1 hd3 hc1 hc3, hres]
  rfl


theorem flip_ne (x : Int) : (if x ≠ 0 then (0 : Int) else 1) ≠ x := by
  by_cases h : x ≠ 0
  · rw [if_pos h]; exact fun e => h e.symm
  · rw [if_neg h, not_not.mp h]; decide

theorem length_token_buffer (d buf : List Char) (hb : buf.length = 20) (hd : d.length ≤ 19) :
    (d ++ NUL :: buf.drop (d.length + 1)).length = 20 := by
  simp only [List.length_append, List.length_cons, List.length_drop, hb]
  omega

/-- C6. For a registered device name `d` and a registered command name `c`
other than `ledon`/`ledoff`, and any starting value of the toggle bit, two
consecutive requests for `(d, c)` are both answered PASS; each flips
`checkBit` exactly once (to 0 if it was non-zero, else to 1), each hands the
frame it leaves in `irCommand` to `sendIRCommand`, and the two 14-element
frames agree at every index except index 2, where they differ. -/
theorem dispatch_twice (g : Globals) (d c : List Char) (hwf : g.WF)
    (h1 : g.readSystemType = false) (h2 : g.systemTypeReadComplete = false)
    (h3 : g.readCommand = false) (h4 : g.commandReadComplete = false)
    (hi : g.i = 0) (hj : g.j = 0)
    (hd : d ∈ systemNames) (hc : c ∈ commandNames)
    (hon : c ≠ "ledon".toList) (hoff : c ≠ "ledoff".toList) :
    ∃ g1 tr1 g2 tr2,
      loop g (request d c) = some (.answered g1 (passResponse ++ tr1) []) ∧
      loop g1 (request d c) = some (.answered g2 (passResponse ++ tr2) []) ∧
      sendIRCommand g1.irCommand = some tr1 ∧
      sendIRCommand g2.irCommand = some tr2 ∧
      g1.checkBit = (if g.checkBit ≠ 0 then 0 else 1) ∧
      g2.checkBit = (if g1.checkBit ≠ 0 then 0 else 1) ∧
      g1.checkBit ≠ g.checkBit ∧ g2.checkBit ≠ g1.checkBit ∧
      g1.irCommand.length = 14 ∧ g2.irCommand.length = 14 ∧
      (∀ k, k < 14 → k ≠ 2 → g1.irCommand[k]? = g2.irCommand[k]?) ∧
      g1.irCommand[2]? = some g1.checkBit ∧ g2.irCommand[2]? = some g2.checkBit ∧
      g1.irCommand[2]? ≠ g2.irCommand[2]? := by
  obtain ⟨sys, cmd, f1, f2, f3, f4, i, j, cb, irc⟩ := g
  obtain ⟨hs, hm, hf⟩ := hwf
  simp only at h1 h2 h3 h4 hi hj hs hm hf
  subst h1 h2 h3 h4 hi hj
  obtain ⟨_, _, hd3⟩ := systemNames_ok d hd
  obtain ⟨_, _, hc3⟩ := commandNames_ok c hc
  obtain ⟨tr1, hsend1, hloop1⟩ := loop_request_frame sys cmd cb irc d c hs hm hf hd hc hon hoff
  have hlen1 : (buildFrame irc (if cb ≠ 0 then 0 else 1) (getSystemKey d)
      (getCommandKey c)).length = 14 := by rw [buildFrame_length, hf]
  obtain ⟨tr2, hsend2, hloop2⟩ := loop_request_frame
    (d ++ NUL :: sys.drop (d.length + 1)) (c ++ NUL :: cmd.drop (c.length + 1))
    (if cb ≠ 0 then 0 else 1)
    (buildFrame irc (if cb ≠ 0 then 0 else 1) (getSystemKey d) (getCommandKey c)) d c
    (length_token_buffer d sys hs hd3) (length_token_buffer c cmd hm hc3) hlen1 hd hc hon hoff
  rw [buildFrame_twice irc hf] at hsend2 hloop2
  obtain ⟨_, _, hbit2⟩ := buildFrame_start irc hf (if cb ≠ 0 then 0 else 1) (getSystemKey d)
    (getCommandKey c)
  have hset2 : ((buildFrame irc (if cb ≠ 0 then 0 else 1) (getSystemKey d)
      (getCommandKey c)).set 2 (if (if cb ≠ 0 then (0 : Int) else 1) ≠ 0 then 0 else 1))[2]? =
      some (if (if cb ≠ 0 then (0 : Int) else 1) ≠ 0 then 0 else 1) := by
    rw [List.getElem?_set_self (by rw [hlen1]; omega)]
  refine ⟨_, tr1, _, tr2, hloop1, hloop2, hsend1, hsend2, rfl, rfl, flip_ne cb, flip_ne _,
    hlen1, by rw [List.length_set, hlen1], ?_, hbit2, hset2, ?_⟩
  · intro k _ hk
    simp only
    rw [List.getElem?_set_ne (fun e => hk e.symm)]
  · simp only
    rw [hbit2, hset2]
    intro e
    exact flip_ne _ (Option.some.inj e).symm

/-- Witness for C6: `GET /tvset1/standby` twice from the start-up globals. -/
theorem dispatch_twice_witness :
    ∃ g1 tr1 g2 tr2,
      loop Globals.init (request "tvset1".toList "standby".toList) =
        some (.answered g1 (passResponse ++ tr1) []) ∧
      loop g1 (request "tvset1".toList "standby".toList) =
        some (.answered g2 (passResponse ++ tr2) []) ∧
      g1.checkBit = 1 ∧ g2.checkBit = 0 ∧
      (∀ k, k < 14 → k ≠ 2 → g1.irCommand[k]? = g2.irCommand[k]?) ∧
      g1.irCommand[2]? ≠ g2.irCommand[2]? := by
  obtain ⟨g1, tr1, g2, tr2, hl1, hl2, _, _, hc1, hc2, _, _, _, _, hsame, _, _, hdiff⟩ :=
    dispatch_twice Globals.init "tvset1".toList "standby".toList (by decide) rfl rfl rfl rfl
      rfl rfl (by decide) (by decide) (by decide) (by decide)
  refine ⟨g1, tr1, g2, tr2, hl1, hl2, ?_, ?_, hsame, hdiff⟩
  · rw [hc1]; rfl
  · rw [hc2, hc1]; rfl


/-! ## Indicator commands -/

/-- The end-of-request branch for `ledon`/`ledoff`: the toggle bit is flipped
and `processCommand` writes one pin level. -/
theorem resolve_indicator (g : Globals) (hs : getSystemKey g.systemType ≠ -1)
    (hk : getCommandKey g.command = 500 ∨ getCommandKey g.command = 501) :
    resolve g =
      some (resetParser { g with checkBit := if g.checkBit ≠ 0 then 0 else 1 },
        passResponse ++
          [.digitalWrite irPin (if getCommandKey g.command = 500 then .HIGH else .LOW)]) := by
  have h0 : getCommandKey g.command ≠ 0 := by
    rcases hk with hk | hk <;> rw [hk] <;> decide
  rw [resolve_pass g hs h0]
  rcases hk with hk | hk
  · simp only [processCommand, hk, if_true, Option.map_some']
  · have hne : ¬ ((501 : Int) = 500) := by decide
    simp only [processCommand, hk, if_neg hne, if_true, Option.map_some']

/-- Counterexample for C7: after `GET /cd/ledon` from the start-up globals the
toggle bit is 1, not the 0 it was before the request. -/
theorem ledon_flips_checkBit :
    loop Globals.init (request "cd".toList "ledon".toList) =
        some (.answered
          ⟨"cd".toList ++ List.replicate 18 NUL, "ledon".toList ++ List.replicate 15 NUL,
            false, false, false, false, 0, 0, 1, List.replicate 14 0⟩
          (passResponse ++ [.digitalWrite irPin .HIGH]) []) ∧
      Globals.init.checkBit = 0 := by
  decide

/-- C7 (amended). For every registered device name, a request for `ledon` or
`ledoff` is answered PASS and builds no frame: `irCommand` is not written and
the only library call after the response is one `digitalWrite` of the pin,
HIGH for `ledon` and LOW for `ledoff` (no serial output, so `sendIRCommand`
was not called).  The toggle bit is flipped as for every successful dispatch:
it becomes 0 if it was non-zero and 1 otherwise. -/
theorem indicator_dispatch (g : Globals) (d : List Char) (hwf : g.WF)
    (h1 : g.readSystemType = false) (h2 : g.systemTypeReadComplete = false)
    (h3 : g.readCommand = false) (h4 : g.commandReadComplete = false)
    (hi : g.i = 0) (hj : g.j = 0) (hd : d ∈ systemNames) :
    ∃ gon goff,
      loop g (request d "ledon".toList) =
        some (.answered gon (passResponse ++ [.digitalWrite irPin .HIGH]) []) ∧
      loop g (request d "ledoff".toList) =
        some (.answered goff (passResponse ++ [.digitalWrite irPin .LOW]) []) ∧
      gon.irCommand = g.irCommand ∧ goff.irCommand = g.irCommand ∧
      gon.checkBit = (if g.checkBit ≠ 0 then 0 else 1) ∧
      goff.checkBit = (if g.checkBit ≠ 0 then 0 else 1) ∧
      gon.checkBit ≠ g.checkBit ∧ goff.checkBit ≠ g.checkBit := by
  obtain ⟨sys, cmd, f1, f2, f3, f4, i, j, cb, irc⟩ := g
  obtain ⟨hs, hm, hf⟩ := hwf
  simp only at h1 h2 h3 h4 hi hj hs hm hf
  subst h1 h2 h3 h4 hi hj
  obtain ⟨hd1, hd2, hd3⟩ := systemNames_ok d hd
  have hcd : cstr (d ++ NUL :: sys.drop (d.length + 1)) = cstr d := by
    rw [cstr_append_nul d _ hd2, cstr_of_no_nul d hd2]
  have hsk : getSystemKey (d ++ NUL :: sys.drop (d.length + 1)) ≠ -1 := by
    rw [Ne, getSystemKey_unknown, hcd, cstr_of_no_nul d hd2]
    exact fun hn => hn hd
  have hon : getCommandKey ("ledon".toList ++ NUL :: cmd.drop ("ledon".toList.length + 1)) =
      500 := by
    rw [getCommandKey_congr _ "ledon".toList
      (by rw [cstr_append_nul _ _ (by decide), cstr_of_no_nul _ (by decide)])]
    decide
  have hoff : getCommandKey ("ledoff".toList ++ NUL :: cmd.drop ("ledoff".toList.length + 1)) =
      501 := by
    rw [getCommandKey_congr _ "ledoff".toList
      (by rw [cstr_append_nul _ _ (by decide), cstr_of_no_nul _ (by decide)])]
    decide
  have hron := resolve_indicator
    ⟨d ++ NUL :: sys.drop (d.length + 1),
      "ledon".toList ++ NUL :: cmd.drop ("ledon".toList.length + 1),
      true, true, true, true, d.length, "ledon".toList.length, cb, irc⟩ hsk (Or.inl hon)
  have hroff := resolve_indicator
    ⟨d ++ NUL :: sys.drop (d.length + 1),
      "ledoff".toList ++ NUL :: cmd.drop ("ledoff".toList.length + 1),
      true, true, true, true, d.length, "ledoff".toList.length, cb, irc⟩ hsk (Or.inr hoff)
  simp only [hon, if_true] at hron
  have hne : ¬ ((501 : Int) = 500) := by decide
  simp only [hoff, if_neg hne] at hroff
  have hlon := loop_request_eq sys cmd cb irc d "ledon".toList hs hm hd1 hd3 (by decide)
    (by decide)
  have hloff := loop_request_eq sys cmd cb irc d "ledoff".toList hs hm hd1 hd3 (by decide)
    (by decide)
  rw [hron, Option.map_some'] at hlon
  rw [hroff, Option.map_some'] at hloff
  exact ⟨_, _, hlon, hloff, rfl, rfl, rfl, rfl, flip_ne cb, flip_ne cb⟩

/-- Witness for C7 (amended): `ledon` and `ledoff` sent to `cd` from the
start-up globals. -/
theorem indicator_dispatch_witness :
    ∃ gon goff,
      loop Globals.init (request "cd".toList "ledon".toList) =
        some (.answered gon (passResponse ++ [.digitalWrite irPin .HIGH]) []) ∧
      loop Globals.init (request "cd".toList "ledoff".toList) =
        some (.answered goff (passResponse ++ [.digitalWrite irPin .LOW]) []) ∧
      gon.checkBit = 1 ∧ goff.checkBit = 1 := by
  obtain ⟨gon, goff, h1, h2, _, _, h5, h6, _, _⟩ :=
    indicator_dispatch Globals.init "cd".toList (by decide) rfl rfl rfl rfl rfl rfl (by decide)
  refine ⟨gon, goff, h1, h2, ?_, ?_⟩
  · rw [h5]; rfl
  · rw [h6]; rfl


/-! ## Frames -/

/-- C8 (failing input). `processCommand(0, 82)` (`tvset1`, `menuon`) with toggle
bit 1 leaves a different frame in `irCommand` depending on what the array
held before: the command switch has no case for key 82, so positions 8 to 13
keep the bits of the frame built earlier.  Sent as the first request after
start-up the frame ends in six zeros; sent after two `standby` requests it
ends in the command bits of `standby`. -/
theorem processCommand_menuon_stale :
    getSystemKey "tvset1".toList = 0 ∧ getCommandKey "menuon".toList = 82 ∧
    (processCommand { Globals.init with checkBit := 1 } 0 82).map
        (fun r => r.1.irCommand) =
      some [1, 1, 1, 0, 0, 0, 0, 0, 0, 0, 0, 0, 0, 0] ∧
    (processCommand
        { Globals.init with checkBit := 1,
                            irCommand := [1, 1, 0, 0, 0, 0, 0, 0, 0, 0, 1, 1, 0, 0] } 0 82).map
        (fun r => r.1.irCommand) =
      some [1, 1, 1, 0, 0, 0, 0, 0, 0, 0, 1, 1, 0, 0] ∧
    (loop Globals.init (request "tvset1".toList "menuon".toList)).map
        (fun s => (s.globals.checkBit, s.globals.irCommand)) =
      some (1, [1, 1, 1, 0, 0, 0, 0, 0, 0, 0, 0, 0, 0, 0]) ∧
    (((loop Globals.init (request "tvset1".toList "standby".toList)).bind
        (fun s => loop s.globals (request "tvset1".toList "standby".toList))).bind
        (fun s => loop s.globals (request "tvset1".toList "menuon".toList))).map
        (fun s => (s.globals.checkBit, s.globals.irCommand)) =
      some (1, [1, 1, 1, 0, 0, 0, 0, 0, 0, 0, 1, 1, 0, 0]) := by
  decide

/-- The toggle bit stays 0 or 1 across every pass through the loop body. -/
theorem loopBody_checkBit (g : Globals) (b : Bool) (c : Char) (st : Step)
    (h : loopBody g b c = some st) (hcb : g.checkBit = 0 ∨ g.checkBit = 1) :
    match st with
    | .next g1 _ => g1.checkBit = g.checkBit
    | .stop g1 _ => g1.checkBit = 0 ∨ g1.checkBit = 1 := by
  unfold loopBody at h
  split_ifs at h
  all_goals first
    | (simp only [Option.some.injEq] at h; subst h; rfl)
    | (simp only [Option.map_eq_some'] at h
       obtain ⟨buf, _, hst⟩ := h
       subst hst
       rfl)
    | skip
  simp only [Option.map_eq_some'] at h
  obtain ⟨r, hr, hst⟩ := h
  subst hst
  simp only
  unfold resolve at hr
  simp only at hr
  split_ifs at hr
  all_goals first
    | (simp only [Option.some.injEq] at hr; subst hr; exact hcb)
    | skip
  all_goals
    simp only [Option.map_eq_some'] at hr
    obtain ⟨p, hp, hpr⟩ := hr
    subst hpr
    simp only [resetParser]
    unfold processCommand at hp
    split_ifs at hp
    all_goals first
      | (simp only [Option.some.injEq] at hp; subst hp; simp)
      | (simp only [Option.map_eq_some'] at hp
         obtain ⟨tr, _, hpt⟩ := hp
         subst hpt
         simp)

/-- C10. For every 14-element frame `f`, `sendIRCommand f` returns, and the
pin/delay part of its trace is the concatenation, in frame order, of fourteen
waveforms, the `k`-th being the trace of `oscillate` on `f[k]`. -/
theorem sendIRCommand_waveforms (f : List Int) (h : f.length = 14) :
    ∃ ws : List (List Event), ws.length = 14 ∧
      (∀ k, k < 14 → oscillate (f.getD k 0) = some (ws.getD k [])) ∧
      (sendIRCommand f).map pinTrace = some ws.flatten := by
  obtain ⟨ws, hlen, hws, hpin, hsend⟩ := sendIRCommand_eq f h
  refine ⟨ws, hlen, ?_, ?_⟩
  · intro k hk
    have hkf : k < f.length := by omega
    have := hws k hk
    rw [List.getElem?_eq_getElem hkf, Option.some_bind] at this
    rw [List.getD_eq_getElem _ _ hkf]
    exact this
  · rw [hsend, Option.map_some']
    have e1 : pinTrace (Event.serialPrint "IR command is: " ::
        (f.map Event.serialPrintInt ++ Event.serialPrintln :: ws.flatten)) =
        pinTrace (f.map Event.serialPrintInt) ++ pinTrace ws.flatten := by
      simp [pinTrace, Event.isPin]
    rw [show (Event.serialPrint "IR command is: " :: List.map Event.serialPrintInt f ++
        Event.serialPrintln :: ws.flatten) = Event.serialPrint "IR command is: " ::
        (f.map Event.serialPrintInt ++ Event.serialPrintln :: ws.flatten) from rfl, e1,
      pinTrace_serialPrintInt, pinTrace_of_isPin _ hpin, List.nil_append]

/-- Witness for C10: the frame of `standby` for `tvset1` with toggle bit 1. -/
theorem sendIRCommand_waveforms_witness :
    ∃ ws : List (List Event), ws.length = 14 ∧
      (∀ k, k < 14 →
        oscillate ([1, 1, 1, 0, 0, 0, 0, 0, 0, 0, 1, 1, 0, 0].getD k 0) = some (ws.getD k [])) ∧
      (sendIRCommand [1, 1, 1, 0, 0, 0, 0, 0, 0, 0, 1, 1, 0, 0]).map pinTrace =
        some ws.flatten :=
  sendIRCommand_waveforms [1, 1, 1, 0, 0, 0, 0, 0, 0, 0, 1, 1, 0, 0] (by decide)

/-! ## Timing and levels of the waveform -/

theorem delaySum_append (a b : List Event) : delaySum (a ++ b) = delaySum a + delaySum b := by
  induction a with
  | nil => simp [delaySum]
  | cons e a ih => cases e <;> simp [delaySum, ih, add_assoc]

theorem delaySum_serialPrintInt (f : List Int) : delaySum (f.map Event.serialPrintInt) = 0 := by
  induction f with
  | nil => rfl
  | cons a f ih => simpa [delaySum] using ih

theorem delaySum_carrier (n : Nat) :
    delaySum (List.replicate n carrierCycle).flatten = (n : Int) * 20 := by
  induction n with
  | zero => rfl
  | succ n ih =>
    rw [List.replicate_succ, List.flatten_cons, delaySum_append, ih]
    have hc : delaySum carrierCycle = 20 := by decide
    rw [hc]
    push_cast
    ring

theorem oscillate_delaySum (bit : Int) : (oscillate bit).map delaySum = some 1624 := by
  rw [oscillate_eq, Option.map_some', Option.some.injEq]
  have hh : delaySum [Event.digitalWrite irPin Level.LOW,
      Event.delayMicroseconds halfOscillationTime] = 864 := by decide
  have hl : delaySum [Event.digitalWrite irPin Level.HIGH,
      Event.delayMicroseconds halfOscillationTime] = 864 := by decide
  by_cases h : bit ≠ 0
  · rw [if_pos h, delaySum_append, delaySum_carrier, hh]; decide
  · rw [if_neg h, delaySum_append, delaySum_carrier, hl]; decide

theorem oscillateLoop_delaySum (f : List Int) :
    ∀ (n i : Nat), i + n ≤ f.length →
      (oscillateLoop f n i).map delaySum = some ((n : Int) * 1624) := by
  intro n
  induction n with
  | zero => intro i _; rfl
  | succ n ih =>
    intro i h
    have hi : i < f.length := by omega
    obtain ⟨w, ho⟩ : ∃ w, oscillate f[i] = some w := ⟨_, oscillate_eq _⟩
    have hw := oscillate_delaySum f[i]
    rw [ho, Option.map_some', Option.some.injEq] at hw
    have hrest := ih (i + 1) (by omega)
    cases hl : oscillateLoop f n (i + 1) with
    | none => rw [hl] at hrest; cases hrest
    | some rest =>
      rw [hl, Option.map_some', Option.some.injEq] at hrest
      simp only [oscillateLoop, List.getElem?_eq_getElem hi, ho, hl, Option.map_some',
        delaySum_append, hw, hrest, Option.some.injEq]
      push_cast
      ring

/-- Counterexample for C11: the delays programmed by one call of `oscillate`
sum to 1624 microseconds for either bit value, not to `oscillationTime`. -/
theorem oscillate_delaySum_ne_oscillationTime :
    (oscillate 1).map delaySum = some 1624 ∧ (oscillate 0).map delaySum = some 1624 ∧
      oscillationTime = 1728 :=
  ⟨oscillate_delaySum 1, oscillate_delaySum 0, rfl⟩

/-- C11 (amended). For either bit value, the delays programmed by one call of
`oscillate` sum to `halfOscillationTime` plus 38 passes of the carrier loop at
20 microseconds each, 864 + 760 = 1624 microseconds; the delays programmed by
`sendIRCommand` for a 14-element frame sum to 14 times that, 22736
microseconds. -/
theorem delaySum_frame (bit : Int) (f : List Int) (h : f.length = 14) :
    (oscillate bit).map delaySum = some (halfOscillationTime + 38 * 20) ∧
      (sendIRCommand f).map delaySum = some (14 * (halfOscillationTime + 38 * 20)) ∧
      halfOscillationTime + 38 * 20 = 1624 := by
  refine ⟨oscillate_delaySum bit, ?_, by decide⟩
  obtain ⟨ws, _, _, _, hsend⟩ := sendIRCommand_eq f h
  have hloop := oscillateLoop_delaySum f 14 0 (by omega)
  have hp := printLoop_eq f 14 0 (by omega)
  simp only [List.drop_zero, List.take_of_length_le (Nat.le_of_eq h)] at hp
  cases hl : oscillateLoop f 14 0 with
  | none => rw [hl] at hloop; cases hloop
  | some waves =>
    rw [hl, Option.map_some', Option.some.injEq] at hloop
    rw [sendIRCommand, hp, hl]
    simp only [Option.map_some', Option.some.injEq]
    show delaySum (Event.serialPrint "IR command is: " ::
      (f.map Event.serialPrintInt ++ Event.serialPrintln :: waves)) = _
    simp only [delaySum, delaySum_append, delaySum_serialPrintInt, hloop]
    decide

/-- Witness for C11 (amended): the frame of `standby` for `tvset1`. -/
theorem delaySum_frame_witness :
    (oscillate 1).map delaySum = some 1624 ∧
      (sendIRCommand [1, 1, 1, 0, 0, 0, 0, 0, 0, 0, 1, 1, 0, 0]).map delaySum = some 22736 := by
  obtain ⟨h1, h2, _⟩ := delaySum_frame 1 [1, 1, 1, 0, 0, 0, 0, 0, 0, 0, 1, 1, 0, 0] (by decide)
  exact ⟨h1, h2⟩

/-- C12 (failing input). `oscillate(0)` sends the carrier burst first and then
writes HIGH before the half-period delay, so the pin is HIGH, not LOW, during
the carrier-off half of a 0 bit; `oscillate(1)` holds the pin LOW for its
carrier-off half and then sends the burst. -/
theorem oscillate_zero_holds_high :
    oscillate 0 =
        some ((List.replicate 38 carrierCycle).flatten ++
          [.digitalWrite irPin .HIGH, .delayMicroseconds halfOscillationTime]) ∧
      oscillate 1 =
        some ([.digitalWrite irPin .LOW, .delayMicroseconds halfOscillationTime] ++
          (List.replicate 38 carrierCycle).flatten) ∧
      carrierCycle =
        [.digitalWrite irPin .HIGH, .delayMicroseconds 10,
         .digitalWrite irPin .LOW, .delayMicroseconds 10] := by
  refine ⟨?_, ?_, rfl⟩ <;> rw [oscillate_eq] <;> rfl

/-! ## Requests that leave a token unfinished -/

/-- Reading `GET /d/` from the parser's initial state. -/
theorem whileConnected_device_slash (sys cmd : List Char) (cb : Int) (irc : List Int)
    (d : List Char) (hs : sys.length = 20) (hd : '/' ∉ d) (hdl : d.length ≤ 19) :
    whileConnected ⟨sys, cmd, false, false, false, false, 0, 0, cb, irc⟩ true
        ("GET /".toList ++ (d ++ ['/'])) =
      some (.waiting ⟨d ++ NUL :: sys.drop (d.length + 1), cmd, true, true, true, false,
        d.length, 0, cb, irc⟩ false) := by
  obtain ⟨r1, hr1⟩ := drop_eq_cons_of_lt sys d.length (by omega)
  rw [whileConnected_waiting_append (whileConnected_get sys cmd cb irc)]
  have hdev := whileConnected_device d hd [] sys cmd false false false 0 cb irc
    (by simp; omega) (by omega)
  simp only [List.nil_append, List.length_nil, Nat.zero_add] at hdev
  rw [whileConnected_waiting_append hdev, hr1]
  have hsl := loopBody_slash d r1 (sys.drop (d.length + 1)) cmd false false false 0 cb irc
    (by omega)
  rw [whileConnected_cons_next hsl]
  rfl

set_option maxRecDepth 100000 in
/-- C13 (failing input). Neither `GET /cd/mute` nor `GET /cd`, each followed by
a blank line, reaches the end-of-request branch: the loop reads the whole
input, stores the line ends in the unfinished token and writes nothing,
whereas a request that leaves the parser idle (`GET` and a blank line) is
answered at its blank line.  The parser stays in the middle of the token:
a well-formed `GET /cd/mute HTTP/1.1` on the next connection is answered
FAIL, and an unfinished request with a `Host:` line stores past the end of
the 20-element buffer. -/
theorem unfinished_request_no_response :
    loop Globals.init "GET /cd/mute\r\n\r\n".toList =
        some (.waiting
          ⟨"cd".toList ++ List.replicate 18 NUL,
            "mute\r\n\r\n".toList ++ List.replicate 12 NUL,
            true, true, true, false, 2, 8, 0, List.replicate 14 0⟩ false) ∧
      loop Globals.init "GET /cd\r\n\r\n".toList =
        some (.waiting
          ⟨"cd\r\n\r\n".toList ++ List.replicate 14 NUL, List.replicate 20 NUL,
            true, false, false, false, 6, 0, 0, List.replicate 14 0⟩ false) ∧
      loop Globals.init "GET\r\n\r\n".toList =
        some (.answered Globals.init failResponse []) ∧
      ((loop Globals.init "GET /cd/mute\r\n\r\n".toList).bind
          (fun s => loop s.globals (request "cd".toList "mute".toList))).map
          (fun s => clientLines s.out) =
        some ["HTTP/1.1 200 OK", "Content-Type:text/html", "", "<H4>FAIL</H4>"] ∧
      loop Globals.init "GET /cd\r\nHost: 192.168.1.15\r\n\r\n".toList = none := by
  decide

/-- The same for every such request, as long as the unfinished token fits its
buffer.  From the initial state, a request whose command token is not
followed by a space (`GET /d/t`, `t` free of spaces, line ends included, at
most 20 characters) or whose second `/` is missing (`GET /u`, `u` free of
`/`, line ends included, at most 20 characters) is read to its end without
reaching the end-of-request branch: every character after the token start,
CR and LF included, is stored in the buffer of the unfinished token, nothing
is written, and the parser is left reading that token. -/
theorem unfinished_request_waits (g : Globals) (d t u : List Char) (hwf : g.WF)
    (h1 : g.readSystemType = false) (h2 : g.systemTypeReadComplete = false)
    (h3 : g.readCommand = false) (h4 : g.commandReadComplete = false)
    (hi : g.i = 0) (hj : g.j = 0)
    (hd : '/' ∉ d) (hdl : d.length ≤ 19) (ht : ' ' ∉ t) (htl : t.length ≤ 20)
    (hu : '/' ∉ u) (hul : u.length ≤ 20) :
    loop g ("GET /".toList ++ (d ++ ('/' :: t))) =
        some (.waiting
          ⟨d ++ NUL :: g.systemType.drop (d.length + 1), t ++ g.command.drop t.length,
            true, true, true, false, d.length, t.length, g.checkBit, g.irCommand⟩ false) ∧
      loop g ("GET /".toList ++ u) =
        some (.waiting
          ⟨u ++ g.systemType.drop u.length, g.command,
            true, false, false, false, u.length, 0, g.checkBit, g.irCommand⟩ false) := by
  obtain ⟨sys, cmd, f1, f2, f3, f4, i, j, cb, irc⟩ := g
  obtain ⟨hs, hm, hf⟩ := hwf
  simp only at h1 h2 h3 h4 hi hj hs hm hf
  subst h1 h2 h3 h4 hi hj
  constructor
  · have hsplit : "GET /".toList ++ (d ++ ('/' :: t)) = ("GET /".toList ++ (d ++ ['/'])) ++ t := by
      simp
    rw [loop, hsplit,
      whileConnected_waiting_append (whileConnected_device_slash sys cmd cb irc d hs hd hdl)]
    have hcmd := whileConnected_command t ht (d ++ NUL :: sys.drop (d.length + 1)) [] cmd
      true true false d.length cb irc rfl (by simp; omega) (by omega)
    simp only [List.nil_append, List.length_nil, Nat.zero_add] at hcmd
    exact hcmd
  · rw [loop, whileConnected_waiting_append (whileConnected_get sys cmd cb irc)]
    have hdev := whileConnected_device u hu [] sys cmd false false false 0 cb irc
      (by simp; omega) (by omega)
    simp only [List.nil_append, List.length_nil, Nat.zero_add] at hdev
    exact hdev

/-! ## The parser between and after requests -/

set_option maxRecDepth 100000 in
/-- C14 (failing input). After `GET /cd/mute` has been answered the flags and
`i`, `j` are back at their defaults but the two buffers still hold `cd` and
`mute`; a following request that is only a blank line is therefore answered
PASS and sends the `mute` frame again, with the toggle bit flipped back. -/
theorem blank_line_repeats_dispatch :
    (loop Globals.init (request "cd".toList "mute".toList)).map
        (fun s => (s.globals.readSystemType, s.globals.systemTypeReadComplete,
          s.globals.readCommand, s.globals.commandReadComplete)) =
      some (false, false, false, false) ∧
    (loop Globals.init (request "cd".toList "mute".toList)).map
        (fun s => (s.globals.i, s.globals.j, s.globals.checkBit)) = some (0, 0, 1) ∧
    (loop Globals.init (request "cd".toList "mute".toList)).map
        (fun s => (cstr s.globals.systemType, cstr s.globals.command)) =
      some ("cd".toList, "mute".toList) ∧
    ((loop Globals.init (request "cd".toList "mute".toList)).bind
        (fun s => loop s.globals "\n".toList)).map
        (fun s => (clientLines s.out, s.globals.checkBit, s.globals.irCommand)) =
      some (["HTTP/1.1 200 OK", "Content-Type:text/html", "", "<H4>PASS</H4>"], 0,
        [1, 1, 0, 1, 0, 1, 0, 0, 0, 0, 1, 1, 0, 1]) := by
  decide

/-- While the device token is being read, the loop body stores at index `i`
whatever its value: the step is undefined exactly when `i` is outside the
20-element buffer. -/
theorem loopBody_device_none (g : Globals) (b : Bool) (c : Char)
    (h1 : g.readSystemType = true) (h2 : g.systemTypeReadComplete = false) :
    loopBody g b c = none ↔ 20 ≤ g.i := by
  simp only [loopBody, h1, h2, Bool.not_false, Bool.and_self, if_true, store]
  by_cases hc : c = '/' <;> by_cases hi : g.i < 20 <;> simp [hc, hi] <;> omega

/-- While the command token is being read, the loop body stores at index `j`
whatever its value. -/
theorem loopBody_command_none (g : Globals) (b : Bool) (c : Char)
    (h1 : (g.readSystemType && !g.systemTypeReadComplete) = false)
    (h3 : g.readCommand = true) (h4 : g.commandReadComplete = false) :
    loopBody g b c = none ↔ 20 ≤ g.j := by
  simp only [loopBody, h1, h3, h4, Bool.not_false, Bool.and_self, if_true, store,
    Bool.false_eq_true, if_false]
  by_cases hc : c = ' ' <;> by_cases hj : g.j < 20 <;> simp [hc, hj] <;> omega

/-- C15 (failing input). In `GET /aaaaaaaaaaaaaaaaaaaaa` the first 20 characters
of the device token fill `systemType[0..19]` and leave `i = 20`; the next
character, whether a 21st character or the closing `/`, is stored at index
20, outside the buffer.  The same happens in `command` at index `j = 20`
for a command token of 20 characters. -/
theorem long_token_store_outside :
    loop Globals.init ("GET /".toList ++ List.replicate 20 'a') =
        some (.waiting
          ⟨List.replicate 20 'a', List.replicate 20 NUL, true, false, false, false, 20, 0, 0,
            List.replicate 14 0⟩ false) ∧
      loopBody ⟨List.replicate 20 'a', List.replicate 20 NUL, true, false, false, false, 20, 0,
          0, List.replicate 14 0⟩ false 'a' = none ∧
      loopBody ⟨List.replicate 20 'a', List.replicate 20 NUL, true, false, false, false, 20, 0,
          0, List.replicate 14 0⟩ false '/' = none ∧
      store (List.replicate 20 'a') 20 'a' = none ∧
      loop Globals.init ("GET /".toList ++ List.replicate 21 'a') = none ∧
      loop Globals.init ("GET /cd/".toList ++ List.replicate 20 'b') =
        some (.waiting
          ⟨"cd".toList ++ List.replicate 18 NUL, List.replicate 20 'b', true, true, true, false,
            2, 20, 0, List.replicate 14 0⟩ false) ∧
      loop Globals.init ("GET /cd/".toList ++ List.replicate 20 'b' ++ " HTTP/1.1".toList) =
        none := by
  decide

theorem init_phase : Globals.init.Phase := by decide

theorem resolve_flags (g : Globals) (r : Globals × List Event) (h : resolve g = some r) :
    r.1.readSystemType = false ∧ r.1.systemTypeReadComplete = false ∧
      r.1.readCommand = false ∧ r.1.commandReadComplete = false ∧ r.1.i = 0 ∧ r.1.j = 0 := by
  unfold resolve at h
  simp only at h
  by_cases h1 : getSystemKey g.systemType ≠ -1
  · rw [if_pos h1] at h
    by_cases h2 : getCommandKey g.command ≠ 0
    · rw [if_pos h2, Option.map_eq_some'] at h
      obtain ⟨p, _, hp⟩ := h
      subst hp
      exact ⟨rfl, rfl, rfl, rfl, rfl, rfl⟩
    · rw [if_neg h2, Option.some.injEq] at h
      subst h
      exact ⟨rfl, rfl, rfl, rfl, rfl, rfl⟩
  · rw [if_neg h1, Option.some.injEq] at h
    subst h
    exact ⟨rfl, rfl, rfl, rfl, rfl, rfl⟩

/-- The loop body keeps the four flags in one of the four parser phases. -/
theorem loopBody_phase (g : Globals) (b : Bool) (c : Char) (hp : g.Phase) :
    (∀ g1 b1, loopBody g b c = some (.next g1 b1) → g1.Phase) ∧
      (∀ g1 out, loopBody g b c = some (.stop g1 out) → g1.Phase) := by
  obtain ⟨sys, cmd, f1, f2, f3, f4, i, j, cb, irc⟩ := g
  simp only [Globals.Phase, List.mem_cons, Prod.mk.injEq, List.not_mem_nil, or_false] at hp
  have hstop : ∀ (g0 : Globals) (r : Globals × List Event), resolve g0 = some r →
      r.1.Phase := by
    intro g0 r hr
    obtain ⟨e1, e2, e3, e4, _, _⟩ := resolve_flags g0 r hr
    simp only [Globals.Phase, e1, e2, e3, e4]
    decide
  rcases hp with ⟨rfl, rfl, rfl, rfl⟩ | ⟨rfl, rfl, rfl, rfl⟩ | ⟨rfl, rfl, rfl, rfl⟩ |
    ⟨rfl, rfl, rfl, rfl⟩
  all_goals
    constructor
    all_goals
      intro g1 x h
      simp only [loopBody, Bool.not_false, Bool.not_true, Bool.and_self, Bool.and_false,
        Bool.and_true, Bool.false_eq_true, if_false, if_true] at h
      split_ifs at h
      all_goals first
        | (simp only [Option.some.injEq, Step.next.injEq] at h
           obtain ⟨hg, _⟩ := h
           subst hg
           simp [Globals.Phase])
        | (simp only [Option.map_eq_some', store, Step.next.injEq] at h
           obtain ⟨buf, _, hg, _⟩ := h
           subst hg
           simp [Globals.Phase])
        | (simp only [Option.map_eq_some', Step.stop.injEq] at h
           obtain ⟨r, hr, hg, _⟩ := h
           subst hg
           exact hstop _ r hr)
        | (simp only [Option.map_eq_some', store, Option.some.injEq, reduceCtorEq, and_false,
             exists_false, exists_const] at h)

/-- C16. Once the parser is complete (`commandReadComplete` is true, which in
every phase the loop body can produce means all four flags are true), a
further character either takes the end-of-request branch (a newline on a
blank line) or leaves the two buffers, `i`, `j` and the four flags as they
are, only `currentLineIsBlank` being updated; this covers `/` and the space.
In particular reading ` HTTP/1.1` changes none of the globals. -/
theorem complete_ignores (g : Globals) (b : Bool) (c : Char) (hp : g.Phase)
    (hc : g.commandReadComplete = true) :
    (¬ (c = '\n' ∧ b = true) → ∃ b1, loopBody g b c = some (.next g b1)) ∧
      (c = '\n' ∧ b = true → loopBody g b c = (resolve g).map (fun r => Step.stop r.1 r.2)) ∧
      loopBody g b '/' = some (.next g b) ∧
      loopBody g b ' ' = some (.next g false) ∧
      whileConnected g b " HTTP/1.1".toList = some (.waiting g false) := by
  obtain ⟨sys, cmd, f1, f2, f3, f4, i, j, cb, irc⟩ := g
  simp only [Globals.Phase, List.mem_cons, Prod.mk.injEq, List.not_mem_nil, or_false] at hp
  simp only at hc
  subst hc
  rcases hp with ⟨_, _, _, h4⟩ | ⟨_, _, _, h4⟩ | ⟨_, _, _, h4⟩ | ⟨rfl, rfl, rfl, _⟩
  · cases h4
  · cases h4
  · cases h4
  · refine ⟨?_, ?_, rfl, rfl, rfl⟩
    · intro hnot
      by_cases h1 : c = '/'
      · exact ⟨b, by simp [loopBody, h1]⟩
      · by_cases h2 : c = '\n'
        · have hb : b = false := by
            cases b
            · rfl
            · exact absurd ⟨h2, rfl⟩ hnot
          subst hb
          exact ⟨true, by simp [loopBody, h1, h2]⟩
        · by_cases h3 : c = '\r'
          · exact ⟨b, by simp [loopBody, h1, h2, h3]⟩
          · exact ⟨false, by simp [loopBody, h1, h2, h3]⟩
    · rintro ⟨h2, rfl⟩
      subst h2
      have e1 : ('\n' = '/') = False := by decide
      simp [loopBody, e1]

/-- Witness for C16: the globals after `GET /cd/mute` has been read. -/
theorem complete_ignores_witness :
    loopBody ⟨"cd".toList ++ List.replicate 18 NUL, "mute".toList ++ List.replicate 16 NUL,
        true, true, true, true, 2, 4, 0, List.replicate 14 0⟩ true '/' =
      some (.next ⟨"cd".toList ++ List.replicate 18 NUL, "mute".toList ++ List.replicate 16 NUL,
        true, true, true, true, 2, 4, 0, List.replicate 14 0⟩ true) ∧
    whileConnected ⟨"cd".toList ++ List.replicate 18 NUL,
        "mute".toList ++ List.replicate 16 NUL,
        true, true, true, true, 2, 4, 0, List.replicate 14 0⟩ true " HTTP/1.1".toList =
      some (.waiting ⟨"cd".toList ++ List.replicate 18 NUL,
        "mute".toList ++ List.replicate 16 NUL,
        true, true, true, true, 2, 4, 0, List.replicate 14 0⟩ false) := by
  obtain ⟨_, _, h3, _, h5⟩ := complete_ignores
    ⟨"cd".toList ++ List.replicate 18 NUL, "mute".toList ++ List.replicate 16 NUL,
      true, true, true, true, 2, 4, 0, List.replicate 14 0⟩ true 'x' (by decide) rfl
  exact ⟨h3, h5⟩

/-! ## The bits of a frame -/

/-- The system switch on a registered device key writes the 5-bit binary
representation of the key, most significant bit first, at indices 3 to 7. -/
theorem systemSwitch_bits (sk : Int) (hsk : sk ∈ [0, 1, 5, 6, 12, 18, 20])
    (a0 a1 a2 a3 a4 a5 a6 a7 a8 a9 a10 a11 a12 a13 : Int) :
    systemSwitch sk [a0, a1, a2, a3, a4, a5, a6, a7, a8, a9, a10, a11, a12, a13] =
      [a0, a1, a2] ++ bitsMSB 5 sk.toNat ++
        [a8, a9, a10, a11, a12, a13] := by
  simp only [List.mem_cons, List.not_mem_nil, or_false] at hsk
  rcases hsk with h | h | h | h | h | h | h <;> subst h <;>
    simp only [systemSwitch, Int.reduceEq, if_true, if_false, setAddress_fourteen] <;> rfl

/-- The command switch on one of the keys 12, 13, 16, 17, 18, 19, 55 writes the
6-bit binary representation of the key, most significant bit first, at
indices 8 to 13. -/
theorem commandSwitch_bits (ck : Int) (hck : ck ∈ [12, 13, 16, 17, 18, 19, 55])
    (a0 a1 a2 a3 a4 a5 a6 a7 a8 a9 a10 a11 a12 a13 : Int) :
    commandSwitch ck [a0, a1, a2, a3, a4, a5, a6, a7, a8, a9, a10, a11, a12, a13] =
      [a0, a1, a2, a3, a4, a5, a6, a7] ++ bitsMSB 6 ck.toNat := by
  simp only [List.mem_cons, List.not_mem_nil, or_false] at hck
  rcases hck with h | h | h | h | h | h | h <;> subst h <;>
    simp only [commandSwitch, Int.reduceEq, if_true, if_false, case55,
      setCommand_fourteen] <;> rfl

/-- The command switch on the keys 48 to 55 runs through to the end of the
switch and leaves the pattern of key 55. -/
theorem commandSwitch_fallthrough (ck : Int) (hck : ck ∈ [48, 50, 52, 53, 54, 55])
    (a0 a1 a2 a3 a4 a5 a6 a7 a8 a9 a10 a11 a12 a13 : Int) :
    commandSwitch ck [a0, a1, a2, a3, a4, a5, a6, a7, a8, a9, a10, a11, a12, a13] =
      [a0, a1, a2, a3, a4, a5, a6, a7, 1, 1, 0, 1, 1, 1] := by
  simp only [List.mem_cons, List.not_mem_nil, or_false] at hck
  rcases hck with h | h | h | h | h | h <;> subst h <;>
    simp only [commandSwitch, Int.reduceEq, if_true, if_false, case48, case50, case52, case53,
      case54, case55, setCommand_fourteen]

/-- The command switch has no case for the keys 82 and 83. -/
theorem commandSwitch_menu (ck : Int) (hck : ck ∈ [82, 83]) (f : List Int) :
    commandSwitch ck f = f := by
  simp only [List.mem_cons, List.not_mem_nil, or_false] at hck
  rcases hck with h | h <;> subst h <;>
    simp only [commandSwitch, Int.reduceEq, if_false]

/-- The infrared branch of `processCommand`: the frame is built over the old
array contents and handed to `sendIRCommand`. -/
theorem processCommand_infrared (g : Globals) (sk ck : Int) (h : g.irCommand.length = 14)
    (h500 : ck ≠ 500) (h501 : ck ≠ 501) :
    ∃ tr, sendIRCommand (buildFrame g.irCommand g.checkBit sk ck) = some tr ∧
      processCommand g sk ck =
        some ({ g with irCommand := buildFrame g.irCommand g.checkBit sk ck }, tr) := by
  obtain ⟨tr, htr⟩ := sendIRCommand_total (buildFrame g.irCommand g.checkBit sk ck)
    (by rw [buildFrame_length, h])
  refine ⟨tr, htr, ?_⟩
  simp only [processCommand, if_neg h500, if_neg h501, htr, Option.map_some']

theorem buildFrame_fallthrough (f : List Int) (hf : f.length = 14) (t sk ck : Int)
    (hck : ck ∈ [48, 50, 52, 53, 54, 55]) :
    (buildFrame f t sk ck).drop 8 = [1, 1, 0, 1, 1, 1] ∧
      buildFrame f t sk ck = buildFrame f t sk 55 := by
  obtain ⟨a0, a1, a2, a3, a4, a5, a6, a7, a8, a9, a10, a11, a12, a13, rfl⟩ :=
    length_eq_fourteen hf
  simp only [buildFrame, set_fourteen_0, set_fourteen_1, set_fourteen_2]
  rcases systemSwitch_shape sk with ⟨b3, b4, b5, b6, b7, hs⟩ | hs <;>
    simp only [hs, commandSwitch_fallthrough ck hck,
      commandSwitch_fallthrough 55 (by decide)] <;> exact ⟨rfl, trivial⟩

theorem buildFrame_bits (f : List Int) (hf : f.length = 14) (t sk ck : Int)
    (hsk : sk ∈ [0, 1, 5, 6, 12, 18, 20]) (hck : ck ∈ [12, 13, 16, 17, 18, 19, 55]) :
    buildFrame f t sk ck = [1, 1, t] ++ bitsMSB 5 sk.toNat ++ bitsMSB 6 ck.toNat := by
  obtain ⟨a0, a1, a2, a3, a4, a5, a6, a7, a8, a9, a10, a11, a12, a13, rfl⟩ :=
    length_eq_fourteen hf
  simp only [buildFrame, set_fourteen_0, set_fourteen_1, set_fourteen_2]
  rw [systemSwitch_bits sk hsk]
  have h5 : ∃ b3 b4 b5 b6 b7, bitsMSB 5 sk.toNat = [b3, b4, b5, b6, b7] :=
    ⟨_, _, _, _, _, rfl⟩
  obtain ⟨b3, b4, b5, b6, b7, hb⟩ := h5
  rw [hb]
  exact commandSwitch_bits ck hck 1 1 t b3 b4 b5 b6 b7 a8 a9 a10 a11 a12 a13

theorem buildFrame_menu (f : List Int) (hf : f.length = 14) (t sk ck : Int)
    (hsk : sk ∈ [0, 1, 5, 6, 12, 18, 20]) (hck : ck ∈ [82, 83]) :
    (buildFrame f t sk ck).take 8 = [1, 1, t] ++ bitsMSB 5 sk.toNat ∧
      (buildFrame f t sk ck).drop 8 = f.drop 8 := by
  obtain ⟨a0, a1, a2, a3, a4, a5, a6, a7, a8, a9, a10, a11, a12, a13, rfl⟩ :=
    length_eq_fourteen hf
  simp only [buildFrame, set_fourteen_0, set_fourteen_1, set_fourteen_2,
    commandSwitch_menu ck hck]
  rw [systemSwitch_bits sk hsk]
  have h5 : ∃ b3 b4 b5 b6 b7, bitsMSB 5 sk.toNat = [b3, b4, b5, b6, b7] :=
    ⟨_, _, _, _, _, rfl⟩
  obtain ⟨b3, b4, b5, b6, b7, hb⟩ := h5
  rw [hb]
  exact ⟨rfl, rfl⟩

/-- C17. For every device key and every toggle value, the command keys 48, 50,
52, 53, 54 and 55 all leave the same command bits: after `processCommand`,
`irCommand[8..13]` is 1, 1, 0, 1, 1, 1, the pattern of key 55, and the whole
frame handed to `sendIRCommand` equals the frame of key 55. -/
theorem fallthrough_frames (g : Globals) (sk ck : Int) (h : g.irCommand.length = 14)
    (hck : ck ∈ [48, 50, 52, 53, 54, 55]) :
    ∃ g1 tr, processCommand g sk ck = some (g1, tr) ∧
      sendIRCommand g1.irCommand = some tr ∧
      g1.irCommand.drop 8 = [1, 1, 0, 1, 1, 1] ∧
      processCommand g sk 55 = some (g1, tr) := by
  have hne : ck ≠ 500 ∧ ck ≠ 501 := by
    simp only [List.mem_cons, List.not_mem_nil, or_false] at hck
    omega
  obtain ⟨tr, hsend, hproc⟩ := processCommand_infrared g sk ck h hne.1 hne.2
  obtain ⟨tr5, hsend5, hproc5⟩ := processCommand_infrared g sk 55 h (by decide) (by decide)
  obtain ⟨hbits, hsame⟩ := buildFrame_fallthrough g.irCommand h g.checkBit sk ck hck
  rw [← hsame] at hsend5 hproc5
  rw [hsend] at hsend5
  cases hsend5
  exact ⟨_, tr, hproc, hsend, hbits, hproc5⟩

/-- Witness for C17: `pause` (key 48) for `vcr1` (key 5) after start-up. -/
theorem fallthrough_frames_witness :
    ∃ g1 tr, processCommand { Globals.init with checkBit := 1 } 5 48 = some (g1, tr) ∧
      g1.irCommand.drop 8 = [1, 1, 0, 1, 1, 1] ∧
      processCommand { Globals.init with checkBit := 1 } 5 55 = some (g1, tr) := by
  obtain ⟨g1, tr, h1, _, h3, h4⟩ :=
    fallthrough_frames { Globals.init with checkBit := 1 } 5 48 (by decide) (by decide)
  exact ⟨g1, tr, h1, h3, h4⟩

/-- C18. For every device key in 0, 1, 5, 6, 12, 18, 20, every command key in
12, 13, 16, 17, 18, 19, 55 and every toggle value `t`, the frame built by
`processCommand` and handed to `sendIRCommand` is 1, 1, `t`, followed by the
5-bit binary representation of the device key and the 6-bit binary
representation of the command key, each most significant bit first. -/
theorem frame_binary (g : Globals) (sk ck : Int) (h : g.irCommand.length = 14)
    (hsk : sk ∈ [0, 1, 5, 6, 12, 18, 20]) (hck : ck ∈ [12, 13, 16, 17, 18, 19, 55]) :
    ∃ g1 tr, processCommand g sk ck = some (g1, tr) ∧
      sendIRCommand g1.irCommand = some tr ∧
      g1.irCommand = [1, 1, g.checkBit] ++ bitsMSB 5 sk.toNat ++ bitsMSB 6 ck.toNat := by
  have hne : ck ≠ 500 ∧ ck ≠ 501 := by
    simp only [List.mem_cons, List.not_mem_nil, or_false] at hck
    omega
  obtain ⟨tr, hsend, hproc⟩ := processCommand_infrared g sk ck h hne.1 hne.2
  exact ⟨_, tr, hproc, hsend, buildFrame_bits g.irCommand h g.checkBit sk ck hsk hck⟩

/-- Witness for C18: `mute` (key 13) for `cd` (key 20) with toggle bit 1. -/
theorem frame_binary_witness :
    ∃ g1 tr, processCommand { Globals.init with checkBit := 1 } 20 13 = some (g1, tr) ∧
      g1.irCommand = [1, 1, 1, 1, 0, 1, 0, 0, 0, 0, 1, 1, 0, 1] := by
  obtain ⟨g1, tr, h1, _, h3⟩ :=
    frame_binary { Globals.init with checkBit := 1 } 20 13 (by decide) (by decide) (by decide)
  exact ⟨g1, tr, h1, h3⟩

/-- C19. For the command keys 82 and 83 (`menuon`, `menuoff`) the command
switch matches no case: with a registered device key, `processCommand` writes
indices 0 to 7 (1, 1, the toggle bit and the five address bits) and leaves
`irCommand[8..13]` as they were before the call, so the command bits sent are
those of the frame built before (all zero after start-up), and the two keys
give the same frame. -/
theorem menu_frames (g : Globals) (sk ck : Int) (h : g.irCommand.length = 14)
    (hsk : sk ∈ [0, 1, 5, 6, 12, 18, 20]) (hck : ck ∈ [82, 83]) :
    ∃ g1 tr, processCommand g sk ck = some (g1, tr) ∧
      sendIRCommand g1.irCommand = some tr ∧
      g1.irCommand.take 8 = [1, 1, g.checkBit] ++ bitsMSB 5 sk.toNat ∧
      g1.irCommand.drop 8 = g.irCommand.drop 8 ∧
      processCommand g sk 82 = some (g1, tr) ∧ processCommand g sk 83 = some (g1, tr) ∧
      Globals.init.irCommand.drop 8 = [0, 0, 0, 0, 0, 0] := by
  have hne : ck ≠ 500 ∧ ck ≠ 501 := by
    simp only [List.mem_cons, List.not_mem_nil, or_false] at hck
    omega
  obtain ⟨tr, hsend, hproc⟩ := processCommand_infrared g sk ck h hne.1 hne.2
  obtain ⟨htake, hdrop⟩ := buildFrame_menu g.irCommand h g.checkBit sk ck hsk hck
  have hsame : ∀ k, k ∈ [82, 83] →
      buildFrame g.irCommand g.checkBit sk k = buildFrame g.irCommand g.checkBit sk ck := by
    intro k hk
    simp only [buildFrame, commandSwitch_menu k hk, commandSwitch_menu ck hck]
  obtain ⟨tr2, hsend2, hproc2⟩ := processCommand_infrared g sk 82 h (by decide) (by decide)
  obtain ⟨tr3, hsend3, hproc3⟩ := processCommand_infrared g sk 83 h (by decide) (by decide)
  rw [hsame 82 (by decide)] at hsend2 hproc2
  rw [hsame 83 (by decide)] at hsend3 hproc3
  rw [hsend] at hsend2 hsend3
  cases hsend2
  cases hsend3
  exact ⟨_, tr, hproc, hsend, htake, hdrop, hproc2, hproc3, by decide⟩

/-- Witness for C19: `menuon` for `tvset1` after two `standby` frames. -/
theorem menu_frames_witness :
    ∃ g1 tr,
      processCommand
        { Globals.init with checkBit := 1,
                            irCommand := [1, 1, 0, 0, 0, 0, 0, 0, 0, 0, 1, 1, 0, 0] } 0 82 =
        some (g1, tr) ∧
      g1.irCommand.take 8 = [1, 1, 1, 0, 0, 0, 0, 0] ∧
      g1.irCommand.drop 8 = [0, 0, 1, 1, 0, 0] := by
  obtain ⟨g1, tr, h1, _, h3, h4, _⟩ := menu_frames
    { Globals.init with checkBit := 1,
                        irCommand := [1, 1, 0, 0, 0, 0, 0, 0, 0, 0, 1, 1, 0, 0] } 0 82
    (by decide) (by decide) (by decide)
  exact ⟨g1, tr, h1, h3, h4⟩

/-! ## The level the pin is left at -/

theorem lastWrite_cons (e : Event) (tr : List Event) :
    lastWrite (e :: tr) =
      match lastWrite tr with
      | some level => some level
      | none =>
        match e with
        | .digitalWrite _ level => some level
        | _ => none := by
  cases e <;> rfl

theorem lastWrite_append (a b : List Event) :
    lastWrite (a ++ b) =
      match lastWrite b with
      | some level => some level
      | none => lastWrite a := by
  induction a with
  | nil => cases h : lastWrite b <;> simp [lastWrite, h]
  | cons e a ih =>
    rw [List.cons_append, lastWrite_cons, ih, lastWrite_cons]
    cases lastWrite b with
    | some level => rfl
    | none => rfl

theorem lastWrite_append_some (a b : List Event) (level : Level)
    (h : lastWrite b = some level) : lastWrite (a ++ b) = some level := by
  rw [lastWrite_append, h]

theorem lastWrite_carrier (n : Nat) :
    lastWrite (List.replicate (n + 1) carrierCycle).flatten = some .LOW := by
  induction n with
  | zero => decide
  | succ n ih =>
    rw [List.replicate_succ, List.flatten_cons]
    exact lastWrite_append_some _ _ _ ih

theorem oscillate_lastWrite (bit : Int) :
    (oscillate bit).bind lastWrite = some (if bit ≠ 0 then .LOW else .HIGH) := by
  rw [oscillate_eq, Option.some_bind]
  by_cases h : bit ≠ 0
  · rw [if_pos h, if_pos h]
    exact lastWrite_append_some _ _ _ (lastWrite_carrier 37)
  · rw [if_neg h, if_neg h]
    exact lastWrite_append_some _ _ _ (by decide)

theorem oscillateLoop_lastWrite (f : List Int) :
    ∀ (n i : Nat), i + (n + 1) ≤ f.length →
      (oscillateLoop f (n + 1) i).bind lastWrite =
        some (if f.getD (i + n) 0 ≠ 0 then .LOW else .HIGH) := by
  intro n
  induction n with
  | zero =>
    intro i h
    have hi : i < f.length := by omega
    obtain ⟨w, ho⟩ : ∃ w, oscillate f[i] = some w := ⟨_, oscillate_eq _⟩
    have hw := oscillate_lastWrite f[i]
    rw [ho, Option.some_bind] at hw
    simp only [oscillateLoop, List.getElem?_eq_getElem hi, ho, Option.map_some',
      Option.some_bind, List.append_nil, Nat.add_zero, List.getD_eq_getElem _ _ hi, hw]
  | succ n ih =>
    intro i h
    have hi : i < f.length := by omega
    obtain ⟨w, ho⟩ : ∃ w, oscillate f[i] = some w := ⟨_, oscillate_eq _⟩
    have hrest := ih (i + 1) (by omega)
    cases hl : oscillateLoop f (n + 1) (i + 1) with
    | none => rw [hl] at hrest; cases hrest
    | some rest =>
      rw [hl, Option.some_bind] at hrest
      rw [oscillateLoop, List.getElem?_eq_getElem hi]
      simp only [ho, hl, Option.map_some', Option.some_bind]
      rw [lastWrite_append_some _ _ _ hrest]
      have e : i + 1 + n = i + (n + 1) := by omega
      rw [e]

/-- C20. The level last written to the pin by `oscillate(bit)` is LOW when
`bit` is non-zero and HIGH when it is 0; hence the last level written by
`sendIRCommand` on a 14-element frame is that of its last bit, and the pin is
left HIGH if and only if `f[13]` is 0. -/
theorem lastWrite_frame (bit : Int) (f : List Int) (h : f.length = 14) :
    (oscillate bit).bind lastWrite = some (if bit ≠ 0 then .LOW else .HIGH) ∧
      (sendIRCommand f).bind lastWrite = some (if f.getD 13 0 ≠ 0 then .LOW else .HIGH) ∧
      ((sendIRCommand f).bind lastWrite = some .HIGH ↔ f.getD 13 0 = 0) := by
  have hloop := oscillateLoop_lastWrite f 13 0 (by omega)
  have hp := printLoop_eq f 14 0 (by omega)
  have hsend : (sendIRCommand f).bind lastWrite =
      some (if f.getD 13 0 ≠ 0 then .LOW else .HIGH) := by
    cases hl : oscillateLoop f 14 0 with
    | none => rw [hl] at hloop; cases hloop
    | some waves =>
      rw [hl, Option.some_bind, Nat.zero_add] at hloop
      rw [sendIRCommand, hp, hl]
      simp only [Option.some_bind]
      rw [show ∀ (x : Event) (l1 : List Event) (y : Event) (l2 : List Event),
          x :: l1 ++ y :: l2 = (x :: l1 ++ [y]) ++ l2 from fun x l1 y l2 => by simp]
      exact lastWrite_append_some _ _ _ hloop
  refine ⟨oscillate_lastWrite bit, hsend, ?_⟩
  rw [hsend]
  by_cases h0 : f.getD 13 0 = 0
  · simp [h0]
  · simp [h0]

/-- Witness for C20: after the frame of `standby`, whose last bit is 0, the
pin is left HIGH. -/
theorem lastWrite_frame_witness :
    (oscillate 0).bind lastWrite = some .HIGH ∧
      (sendIRCommand [1, 1, 1, 0, 0, 0, 0, 0, 0, 0, 1, 1, 0, 0]).bind lastWrite = some .HIGH := by
  obtain ⟨h1, h2, _⟩ := lastWrite_frame 0 [1, 1, 1, 0, 0, 0, 0, 0, 0, 0, 1, 1, 0, 0] (by decide)
  exact ⟨h1, h2⟩

end ArduinoRemote
